import Mathlib

/-!
# Server-side agent record of the OpAMP example server

A shallow embedding of `internal/examples/server/data/agent.go`: the per-agent
record, the merge of incoming status reports, the remote-config bundle
computation with its SHA-256 content hash, and the custom-config override.

Go values are embedded as follows.

* `[]byte` and `string` are byte sequences (`Bytes`); a nil slice and an empty
  slice are the same list, which is how `bytes.Compare` and `bytes.Equal` see them.
* A pointer is an `Option`; dereferencing `none` is a run-time panic, so every
  function that dereferences returns an `Option` and `none` stands for the panic.
* A Go map is an association list (`GoMap`); a nil map is the empty list.
* A channel is a reference (`ChanId`) into a table of buffered channels; no
  receiver is waiting on a channel and no channel is closed.
* The two mutexes only delimit critical sections and carry no data; calls are
  taken one at a time.
* Messages are values: a report or a config handed to the record is not
  modified by its sender afterwards, and the connection of a record is present.
-/

namespace Opamp

/-! ## Bytes and the SHA-256 digest (`crypto/sha256`) -/

abbrev Byte := Fin 256

abbrev Bytes := List Byte

/-- The sixty-four round constants of SHA-256 (FIPS 180-4, section 4.2.2). -/
def sha256K : List Nat :=
  [0x428a2f98, 0x71374491, 0xb5c0fbcf, 0xe9b5dba5,
   0x3956c25b, 0x59f111f1, 0x923f82a4, 0xab1c5ed5,
   0xd807aa98, 0x12835b01, 0x243185be, 0x550c7dc3,
   0x72be5d74, 0x80deb1fe, 0x9bdc06a7, 0xc19bf174,
   0xe49b69c1, 0xefbe4786, 0x0fc19dc6, 0x240ca1cc,
   0x2de92c6f, 0x4a7484aa, 0x5cb0a9dc, 0x76f988da,
   0x983e5152, 0xa831c66d, 0xb00327c8, 0xbf597fc7,
   0xc6e00bf3, 0xd5a79147, 0x06ca6351, 0x14292967,
   0x27b70a85, 0x2e1b2138, 0x4d2c6dfc, 0x53380d13,
   0x650a7354, 0x766a0abb, 0x81c2c92e, 0x92722c85,
   0xa2bfe8a1, 0xa81a664b, 0xc24b8b70, 0xc76c51a3,
   0xd192e819, 0xd6990624, 0xf40e3585, 0x106aa070,
   0x19a4c116, 0x1e376c08, 0x2748774c, 0x34b0bcb5,
   0x391c0cb3, 0x4ed8aa4a, 0x5b9cca4f, 0x682e6ff3,
   0x748f82ee, 0x78a5636f, 0x84c87814, 0x8cc70208,
   0x90befffa, 0xa4506ceb, 0xbef9a3f7, 0xc67178f2]

/-- Reduction of a natural number to a 32-bit word. -/
def word32 (x : Nat) : Nat := x % 4294967296

/-- Rotation of a 32-bit word to the right by `n` bits, `0 < n < 32`. -/
def rotr32 (x n : Nat) : Nat := word32 ((x >>> n) ||| (x <<< (32 - n)))

def bigSigma0 (x : Nat) : Nat := rotr32 x 2 ^^^ rotr32 x 13 ^^^ rotr32 x 22

def bigSigma1 (x : Nat) : Nat := rotr32 x 6 ^^^ rotr32 x 11 ^^^ rotr32 x 25

def smallSigma0 (x : Nat) : Nat := rotr32 x 7 ^^^ rotr32 x 18 ^^^ (x >>> 3)

def smallSigma1 (x : Nat) : Nat := rotr32 x 17 ^^^ rotr32 x 19 ^^^ (x >>> 10)

def choose32 (x y z : Nat) : Nat := (x &&& y) ^^^ ((x ^^^ 0xffffffff) &&& z)

def majority32 (x y z : Nat) : Nat := (x &&& y) ^^^ (x &&& z) ^^^ (y &&& z)

/-- The eight working words of the digest state. -/
structure Sha256State where
  a : Nat
  b : Nat
  c : Nat
  d : Nat
  e : Nat
  f : Nat
  g : Nat
  h : Nat
deriving DecidableEq, Repr

/-- The initial hash value of SHA-256 (FIPS 180-4, section 5.3.3). -/
def sha256Init : Sha256State :=
  { a := 0x6a09e667, b := 0xbb67ae85, c := 0x3c6ef372, d := 0xa54ff53a,
    e := 0x510e527f, f := 0x9b05688c, g := 0x1f83d9ab, h := 0x5be0cd19 }

/-- The padding of a message: a one bit, zero bits up to 56 modulo 64 bytes,
then the bit length as a 64-bit big-endian number. -/
def sha256Pad (msg : List Nat) : List Nat :=
  let bits := (8 * msg.length) % 18446744073709551616
  msg ++ [0x80] ++ List.replicate ((119 - msg.length % 64) % 64) 0 ++
    [(bits >>> 56) % 256, (bits >>> 48) % 256, (bits >>> 40) % 256, (bits >>> 32) % 256,
     (bits >>> 24) % 256, (bits >>> 16) % 256, (bits >>> 8) % 256, bits % 256]

/-- Big-endian 32-bit words of a byte sequence whose length is a multiple of four. -/
def bytesToWords : List Nat → List Nat
  | b0 :: b1 :: b2 :: b3 :: rest =>
      (b0 * 16777216 + b1 * 65536 + b2 * 256 + b3) :: bytesToWords rest
  | _ => []

/-- The sequence of 16-word blocks of a word sequence; `fuel` bounds the number of blocks. -/
def toBlocks : Nat → List Nat → List (List Nat)
  | 0, _ => []
  | fuel + 1, ws => if ws.isEmpty then [] else ws.take 16 :: toBlocks fuel (ws.drop 16)

/-- Extension of the message schedule by `n` words; `rev` holds the words so
far, the most recent first. -/
def extendSchedule : Nat → List Nat → List Nat
  | 0, rev => rev
  | n + 1, rev =>
      let w := word32 (smallSigma1 (rev.getD 1 0) + rev.getD 6 0 +
        smallSigma0 (rev.getD 14 0) + rev.getD 15 0)
      extendSchedule n (w :: rev)

/-- One round of the compression function with round constant `k` and schedule word `w`. -/
def sha256Round (s : Sha256State) (kw : Nat × Nat) : Sha256State :=
  let t1 := word32 (s.h + bigSigma1 s.e + choose32 s.e s.f s.g + kw.1 + kw.2)
  let t2 := word32 (bigSigma0 s.a + majority32 s.a s.b s.c)
  { a := word32 (t1 + t2), b := s.a, c := s.b, d := s.c,
    e := word32 (s.d + t1), f := s.e, g := s.f, h := s.g }

/-- The compression of one 16-word block into the digest state. -/
def sha256Block (s : Sha256State) (block : List Nat) : Sha256State :=
  let sched := (extendSchedule 48 block.reverse).reverse
  let r := (List.zip sha256K sched).foldl sha256Round s
  { a := word32 (s.a + r.a), b := word32 (s.b + r.b), c := word32 (s.c + r.c),
    d := word32 (s.d + r.d), e := word32 (s.e + r.e), f := word32 (s.f + r.f),
    g := word32 (s.g + r.g), h := word32 (s.h + r.h) }

/-- The four big-endian bytes of a 32-bit word. -/
def wordBytes (w : Nat) : Bytes :=
  [Fin.ofNat (w >>> 24), Fin.ofNat (w >>> 16), Fin.ofNat (w >>> 8), Fin.ofNat w]

/-- The SHA-256 digest of a byte sequence: what `sha256.New()` returns from
`Sum(nil)` after the bytes have been written to it. -/
def sha256Sum (data : Bytes) : Bytes :=
  let ws := bytesToWords (sha256Pad (data.map Fin.val))
  let s := (toBlocks (ws.length / 16) ws).foldl sha256Block sha256Init
  wordBytes s.a ++ wordBytes s.b ++ wordBytes s.c ++ wordBytes s.d ++
    wordBytes s.e ++ wordBytes s.f ++ wordBytes s.g ++ wordBytes s.h

/-! ## Protocol messages

Only the fields that the agent record reads or writes are kept. -/

/-- Modelled from the spec: the message type `AgentDescription` is declared in
the protobufs package, which is not among the sources. The spec speaks of a
description compared "field-for-field", so a description is a list of named
field values. -/
structure AgentDescription where
  fields : List (Bytes × Bytes)
deriving DecidableEq

/-- The message `AgentConfigFile`: a body and a content type. -/
structure AgentConfigFile where
  Body : Bytes
  ContentType : Bytes
deriving DecidableEq

/-- A Go `map[string]*AgentConfigFile`: keys are strings, values are pointers.
The order of the list stands for the order in which `range` visits the map. -/
abbrev GoMap := List (Bytes × Option AgentConfigFile)

/-- The message `AgentConfigMap`. -/
structure AgentConfigMap where
  ConfigMap : GoMap
deriving DecidableEq

/-- The message `EffectiveConfig`. -/
structure EffectiveConfig where
  Hash : Bytes
  ConfigMap : Option AgentConfigMap
deriving DecidableEq

/-- The message `RemoteConfigStatus`. -/
structure RemoteConfigStatus where
  LastRemoteConfigHash : Bytes
deriving DecidableEq

/-- The message `StatusReport`. -/
structure StatusReport where
  AgentDescription : Option AgentDescription
  EffectiveConfig : Option EffectiveConfig
  RemoteConfigStatus : Option RemoteConfigStatus
deriving DecidableEq

/-- The message `AgentRemoteConfig`: the remote config bundle. -/
structure AgentRemoteConfig where
  Config : Option AgentConfigMap
  ConfigHash : Bytes
deriving DecidableEq

/-- The message `ServerToAgent`; `Flags` is the bit pattern of the 32-bit flag word. -/
structure ServerToAgent where
  RemoteConfig : Option AgentRemoteConfig
  Flags : Nat
deriving DecidableEq

/-- Modelled from the spec: the constant `ServerToAgent_ReportEffectiveConfig`
is declared in the protobufs package, which is not among the sources. It is the
"flag requesting the agent report its effective config", the lowest bit of the
flag word. -/
def ServerToAgent_ReportEffectiveConfig : Nat := 1

/-! ## Go maps -/

/-- The two-valued index expression `v, ok := m[k]`: `none` when the key is absent. -/
def mapLookup (m : GoMap) (k : Bytes) : Option (Option AgentConfigFile) :=
  List.lookup k m

/-- The index expression `m[k]`: the nil pointer when the key is absent. -/
def mapIndex (m : GoMap) (k : Bytes) : Option AgentConfigFile :=
  match mapLookup m k with
  | some v => v
  | none => none

/-- The assignment `m[k] = v`. -/
def mapSet (m : GoMap) (k : Bytes) (v : Option AgentConfigFile) : GoMap :=
  (k, v) :: m.filter (fun kv => kv.1 != k)

/-! ## Channels and the connection -/

abbrev ChanId := Nat

/-- A buffered channel of `struct{}`: its capacity and the number of signals it
holds. No receiver is waiting on it and it is not closed. -/
structure Chan where
  cap : Nat
  len : Nat
deriving DecidableEq

/-- The channels that exist, by reference. -/
abbrev Chans := ChanId → Chan

/-- Delivery of one signal into channel `ch`. -/
def chanPut (chans : Chans) (ch : ChanId) : Chans :=
  fun c => if c = ch then { cap := (chans ch).cap, len := (chans ch).len + 1 } else chans c

/-- The statement `select { case ch <- struct{}{}: default: }`: the signal is
delivered when the buffer has room and dropped otherwise. -/
def trySend (chans : Chans) (ch : ChanId) : Chans :=
  if (chans ch).len < (chans ch).cap then chanPut chans ch else chans

/-- The connection to the agent (`types.Connection`), taken to be present: the
messages handed to `Send`, oldest first. -/
structure Connection where
  sent : List ServerToAgent
deriving DecidableEq

/-! ## The agent record -/

/-- The struct `Agent`, without its two mutexes. -/
structure Agent where
  InstanceId : Bytes
  conn : Connection
  Status : Option StatusReport
  EffectiveConfig : Bytes
  CustomInstanceConfig : Bytes
  remoteConfig : Option AgentRemoteConfig
  statusUpdateWatchers : List ChanId
deriving DecidableEq

/-- How a call ends: it returns, it panics on a nil dereference, or it blocks
for ever on a channel send. A blocked call carries the state it left behind. -/
inductive Outcome (α : Type) where
  | returns : α → Outcome α
  | panics : Outcome α
  | blocks : α → Outcome α

def NewAgent (instanceId : Bytes) (conn : Connection) : Agent :=
  { InstanceId := instanceId, conn := conn, Status := none, EffectiveConfig := [],
    CustomInstanceConfig := [], remoteConfig := none, statusUpdateWatchers := [] }

/-- Modelled from the spec: `isEqualAgentDescr` is called by `updateStatusField`
but its body is not among the sources. The spec says the incoming description is
compared "field-for-field against the stored description"; two absent
descriptions are equal and an absent one differs from a present one, as in the
sibling comparisons of this file. -/
def isEqualAgentDescr (d1 d2 : Option AgentDescription) : Bool :=
  decide (d1 = d2)

def isEqualConfigFile (f1 f2 : Option AgentConfigFile) : Bool :=
  match f1, f2 with
  | none, none => true
  | none, some _ => false
  | some _, none => false
  | some a, some b => decide (a.Body = b.Body) && decide (a.ContentType = b.ContentType)

def isEqualConfigSet (c1 c2 : Option AgentConfigMap) : Bool :=
  match c1, c2 with
  | none, none => true
  | none, some _ => false
  | some _, none => false
  | some a, some b =>
    if a.ConfigMap.length != b.ConfigMap.length then false
    else a.ConfigMap.all (fun kv =>
      match mapLookup b.ConfigMap kv.1 with
      | none => false
      | some v2 => isEqualConfigFile kv.2 v2)

def isEqualRemoteConfig (c1 c2 : Option AgentRemoteConfig) : Bool :=
  match c1, c2 with
  | none, none => true
  | none, some _ => false
  | some _, none => false
  | some a, some b => isEqualConfigSet a.Config b.Config

/-- The bytes written to the digest by the loop over the config map: for each
entry the key, the body and the content type. A nil file pointer panics. -/
def hashWrites : GoMap → Bytes → Option Bytes
  | [], written => some written
  | (_, none) :: _, _ => none
  | (k, some v) :: rest, written => hashWrites rest (written ++ k ++ v.Body ++ v.ContentType)

def calcRemoteConfig (agent : Agent) : Option (Bool × Agent) :=
  let configMap : GoMap :=
    mapSet [] [] (some { Body := agent.CustomInstanceConfig, ContentType := [] })
  match hashWrites configMap [] with
  | none => none
  | some written =>
    let cfg : AgentRemoteConfig :=
      { Config := some { ConfigMap := configMap }, ConfigHash := sha256Sum written }
    let configChanged := !isEqualRemoteConfig agent.remoteConfig (some cfg)
    some (configChanged, { agent with remoteConfig := some cfg })

def updateStatusField (agent : Agent) (newStatus : Option StatusReport) :
    Option (Bool × Agent) :=
  match agent.Status with
  | none => some (true, { agent with Status := newStatus })
  | some prevStatus =>
    match newStatus with
    | none => none
    | some ns =>
      let r : Bool × StatusReport :=
        match ns.AgentDescription with
        | some _ =>
          if isEqualAgentDescr prevStatus.AgentDescription ns.AgentDescription then
            (false, prevStatus)
          else
            (true, { prevStatus with AgentDescription := ns.AgentDescription })
        | none => (false, prevStatus)
      let st : StatusReport :=
        match ns.RemoteConfigStatus with
        | some _ => { r.2 with RemoteConfigStatus := ns.RemoteConfigStatus }
        | none => r.2
      some (r.1, { agent with Status := some st })

/-- The loop that rebuilds the display string: the bodies in `range` order. -/
def appendBodies : GoMap → Bytes → Option Bytes
  | [], acc => some acc
  | (_, none) :: _, _ => none
  | (_, some cfg) :: rest, acc => appendBodies rest (acc ++ cfg.Body)

/-- The condition under which `updateEffectiveConfig` asks for the effective config. -/
def needEffectiveConfig (stored incoming : Option EffectiveConfig) : Bool :=
  match stored, incoming with
  | none, _ => true
  | some _, none => true
  | some st, some inc =>
    match st.ConfigMap with
    | none => true
    | some _ => decide (st.Hash ≠ inc.Hash)

def updateEffectiveConfig (agent : Agent) (newStatus : Option StatusReport)
    (response : Option ServerToAgent) : Option (Agent × Option ServerToAgent) :=
  match newStatus with
  | none => none
  | some ns =>
    let stored : Option Agent :=
      match ns.EffectiveConfig with
      | none => some agent
      | some ec =>
        match ec.ConfigMap with
        | none => some agent
        | some cm =>
          match agent.Status with
          | none => none
          | some st =>
            match appendBodies cm.ConfigMap [] with
            | none => none
            | some text =>
              some { agent with
                Status := some { st with EffectiveConfig := ns.EffectiveConfig },
                EffectiveConfig := text }
    match stored with
    | none => none
    | some agent1 =>
      match agent1.Status with
      | none => none
      | some st =>
        if needEffectiveConfig st.EffectiveConfig ns.EffectiveConfig then
          match response with
          | none => none
          | some r =>
            some (agent1, some { r with Flags := r.Flags ||| ServerToAgent_ReportEffectiveConfig })
        else some (agent1, response)

def processStatusUpdate (agent : Agent) (newStatus : Option StatusReport)
    (response : Option ServerToAgent) : Option (Agent × Option ServerToAgent) :=
  match updateStatusField agent newStatus with
  | none => none
  | some (needCalculateConfig, agent1) =>
    let recalc : Option (Bool × Agent) :=
      if needCalculateConfig then calcRemoteConfig agent1 else some (false, agent1)
    match recalc with
    | none => none
    | some (configChanged, agent2) =>
      let push : Option Bool :=
        if configChanged then some true
        else
          match newStatus with
          | none => none
          | some ns =>
            match ns.RemoteConfigStatus with
            | none => some false
            | some rcs =>
              match agent2.remoteConfig with
              | none => none
              | some rc => some (decide (rcs.LastRemoteConfigHash ≠ rc.ConfigHash))
      match push with
      | none => none
      | some p =>
        let response1 : Option (Option ServerToAgent) :=
          if p then
            match response with
            | none => none
            | some r => some (some { r with RemoteConfig := agent2.remoteConfig })
          else some response
        match response1 with
        | none => none
        | some r1 => updateEffectiveConfig agent2 newStatus r1

def notifyStatusWatchers (statusUpdateWatchers : List ChanId) (chans : Chans) : Chans :=
  statusUpdateWatchers.foldl trySend chans

def UpdateStatus (agent : Agent) (chans : Chans) (newStatus : Option StatusReport)
    (response : Option ServerToAgent) : Option (Agent × Option ServerToAgent × Chans) :=
  match processStatusUpdate agent newStatus response with
  | none => none
  | some (agent1, response1) =>
    let statusUpdateWatchers := agent1.statusUpdateWatchers
    some ({ agent1 with statusUpdateWatchers := [] }, response1,
      notifyStatusWatchers statusUpdateWatchers chans)

def SendToAgent (agent : Agent) (msg : ServerToAgent) : Agent :=
  { agent with conn := { sent := agent.conn.sent ++ [msg] } }

def SetCustomConfig (agent : Agent) (chans : Chans) (config : Option AgentConfigMap)
    (notifyWhenConfigIsApplied : Option ChanId) : Outcome (Agent × Chans) :=
  match config with
  | none => Outcome.panics
  | some cfg =>
    match mapIndex cfg.ConfigMap [] with
    | none => Outcome.panics
    | some file =>
      match calcRemoteConfig { agent with CustomInstanceConfig := file.Body } with
      | none => Outcome.panics
      | some (configChanged, agent1) =>
        if configChanged then
          let agent2 : Agent :=
            match notifyWhenConfigIsApplied with
            | some ch =>
              { agent1 with statusUpdateWatchers := agent1.statusUpdateWatchers ++ [ch] }
            | none => agent1
          let msg : ServerToAgent := { RemoteConfig := agent2.remoteConfig, Flags := 0 }
          Outcome.returns (SendToAgent agent2 msg, chans)
        else
          match notifyWhenConfigIsApplied with
          | some ch =>
            if (chans ch).len < (chans ch).cap then Outcome.returns (agent1, chanPut chans ch)
            else Outcome.blocks (agent1, chans)
          | none => Outcome.returns (agent1, chans)

/-! ## Closed forms used in the proofs -/

/-- The bundle that `calcRemoteConfig` builds from a custom config body. -/
def bundleOf (body : Bytes) : AgentRemoteConfig :=
  { Config := some { ConfigMap := [([], some { Body := body, ContentType := [] })] },
    ConfigHash := sha256Sum body }

/-- The value `needCalculateConfig` that `updateStatusField` returns on a present report. -/
def needCalc (agent : Agent) (s : StatusReport) : Bool :=
  match agent.Status with
  | none => true
  | some prev =>
    match s.AgentDescription with
    | none => false
    | some _ => !isEqualAgentDescr prev.AgentDescription s.AgentDescription

/-- The status that `updateStatusField` leaves in the record on a present report. -/
def mergedStatus (agent : Agent) (s : StatusReport) : StatusReport :=
  match agent.Status with
  | none => s
  | some prev =>
    { AgentDescription :=
        if needCalc agent s then s.AgentDescription else prev.AgentDescription,
      EffectiveConfig := prev.EffectiveConfig,
      RemoteConfigStatus :=
        match s.RemoteConfigStatus with
        | some x => some x
        | none => prev.RemoteConfigStatus }

/-- The bundle of the record when `processStatusUpdate` takes the push decision. -/
def bundleAfter (agent : Agent) (s : StatusReport) : Option AgentRemoteConfig :=
  if needCalc agent s then some (bundleOf agent.CustomInstanceConfig) else agent.remoteConfig

/-- The value of `configChanged` in `processStatusUpdate`. -/
def configChangedBy (agent : Agent) (s : StatusReport) : Bool :=
  needCalc agent s &&
    !isEqualRemoteConfig agent.remoteConfig (some (bundleOf agent.CustomInstanceConfig))

/-- The push decision of `processStatusUpdate` when it does not panic. -/
def pushWanted (agent : Agent) (s : StatusReport) : Bool :=
  configChangedBy agent s ||
    match s.RemoteConfigStatus, bundleAfter agent s with
    | some ack, some rc => decide (ack.LastRemoteConfigHash ≠ rc.ConfigHash)
    | _, _ => false

/-- The effective config stored in the record after `updateEffectiveConfig`. -/
def storedEffective (st s : StatusReport) : Option EffectiveConfig :=
  match s.EffectiveConfig with
  | none => st.EffectiveConfig
  | some ec =>
    match ec.ConfigMap with
    | none => st.EffectiveConfig
    | some _ => s.EffectiveConfig

/-- The display string after `updateEffectiveConfig`, `none` when the loop over
the incoming files meets a nil file. -/
def effectiveText (s : StatusReport) (old : Bytes) : Option Bytes :=
  match s.EffectiveConfig with
  | none => some old
  | some ec =>
    match ec.ConfigMap with
    | none => some old
    | some cm => appendBodies cm.ConfigMap []

/-- The push decision reads the hash of an absent bundle: the report causes no
recalculation, the record has no bundle and the report carries an acknowledgment. -/
def readsAbsentBundle (agent : Agent) (s : StatusReport) : Bool :=
  !needCalc agent s && agent.remoteConfig.isNone && s.RemoteConfigStatus.isSome

/-- The nil dereferences of `UpdateStatus` on a present report and a present
response: the hash of an absent bundle is read, or the incoming effective
config holds a nil file. -/
def statusUpdatePanics (agent : Agent) (s : StatusReport) : Prop :=
  readsAbsentBundle agent s = true ∨ effectiveText s [] = none

instance (agent : Agent) (s : StatusReport) : Decidable (statusUpdatePanics agent s) := by
  unfold statusUpdatePanics
  infer_instance

/-- The record, the response and the channels that `UpdateStatus` returns on a
present report and a present response, when the display string is `text`. -/
def statusUpdateResult (agent : Agent) (chans : Chans) (s : StatusReport)
    (r : ServerToAgent) (text : Bytes) : Agent × Option ServerToAgent × Chans :=
  ({ InstanceId := agent.InstanceId, conn := agent.conn,
     Status := some
       { AgentDescription := (mergedStatus agent s).AgentDescription,
         EffectiveConfig := storedEffective (mergedStatus agent s) s,
         RemoteConfigStatus := (mergedStatus agent s).RemoteConfigStatus },
     EffectiveConfig := text,
     CustomInstanceConfig := agent.CustomInstanceConfig,
     remoteConfig := bundleAfter agent s,
     statusUpdateWatchers := [] },
   some
     { RemoteConfig := if pushWanted agent s then bundleAfter agent s else r.RemoteConfig,
       Flags :=
         if needEffectiveConfig (storedEffective (mergedStatus agent s) s) s.EffectiveConfig
         then r.Flags ||| ServerToAgent_ReportEffectiveConfig else r.Flags },
   notifyStatusWatchers agent.statusUpdateWatchers chans)

/-- The record that `SetCustomConfig` leaves when the bundle did not change. -/
def keptAgent (agent : Agent) (body : Bytes) : Agent :=
  { agent with CustomInstanceConfig := body, remoteConfig := some (bundleOf body) }

/-- The record that `SetCustomConfig` leaves when the bundle changed: the
channel, if any, is pending and the new bundle has been sent. -/
def pushedAgent (agent : Agent) (body : Bytes) (notify : Option ChanId) : Agent :=
  { agent with
      CustomInstanceConfig := body,
      remoteConfig := some (bundleOf body),
      statusUpdateWatchers := agent.statusUpdateWatchers ++ notify.toList,
      conn := { sent := agent.conn.sent ++
        [{ RemoteConfig := some (bundleOf body), Flags := 0 }] } }

/-- The value a call has returned, if it returned. -/
def Outcome.returned {α : Type} : Outcome α → Option α
  | Outcome.returns x => some x
  | Outcome.panics => none
  | Outcome.blocks _ => none

/-- The state a call has left behind, whether it returned or blocked. -/
def Outcome.left {α : Type} : Outcome α → Option α
  | Outcome.returns x => some x
  | Outcome.panics => none
  | Outcome.blocks x => some x

/-- The states reachable from `NewAgent` by calls of `UpdateStatus` and
`SetCustomConfig` with arbitrary arguments, while other goroutines are free to
send to and receive from the channels between the calls. -/
inductive Reachable : Agent → Chans → Prop where
  | newAgent (instanceId : Bytes) (conn : Connection) (chans : Chans) :
      Reachable (NewAgent instanceId conn) chans
  | updateStatus {agent : Agent} {chans : Chans} (newStatus : Option StatusReport)
      (response : Option ServerToAgent) {agent1 : Agent}
      {response1 : Option ServerToAgent} {chans1 : Chans} :
      Reachable agent chans →
      UpdateStatus agent chans newStatus response = some (agent1, response1, chans1) →
      Reachable agent1 chans1
  | setCustomConfig {agent : Agent} {chans : Chans} (config : Option AgentConfigMap)
      (notifyWhenConfigIsApplied : Option ChanId) {agent1 : Agent} {chans1 : Chans} :
      Reachable agent chans →
      (SetCustomConfig agent chans config notifyWhenConfigIsApplied).left =
        some (agent1, chans1) →
      Reachable agent1 chans1
  | channels {agent : Agent} {chans : Chans} (chans1 : Chans) :
      Reachable agent chans → Reachable agent chans1

/-- The hash of a bundle is the digest of its own config map: the map is
present, and the hash is the SHA-256 digest of the bytes written for its
entries, key, body and content type each. -/
def HashFresh (rc : AgentRemoteConfig) : Prop :=
  ∃ cm written, rc.Config = some cm ∧ hashWrites cm.ConfigMap [] = some written ∧
    rc.ConfigHash = sha256Sum written

/-! ## Concrete values used in witnesses and counterexamples -/

/-- A record fresh from `NewAgent`, with an empty instance id and a connection
that has sent nothing. -/
def freshAgent : Agent := NewAgent [] { sent := [] }

/-- Channels of capacity one that hold no signal. -/
def emptyChans : Chans := fun _ => { cap := 1, len := 0 }

/-- A response with no field set. -/
def emptyResponse : ServerToAgent := { RemoteConfig := none, Flags := 0 }

/-- A status report that carries only an (empty) agent description. -/
def descrReport : StatusReport :=
  { AgentDescription := some { fields := [] }, EffectiveConfig := none,
    RemoteConfigStatus := none }

/-- A status report that carries only an acknowledgment with an empty hash. -/
def staleAckReport : StatusReport :=
  { AgentDescription := none, EffectiveConfig := none,
    RemoteConfigStatus := some { LastRemoteConfigHash := [] } }

/-- A first status report that carries an agent description together with an
effective config of one file. -/
def fullReport : StatusReport :=
  { AgentDescription := some { fields := [] },
    EffectiveConfig := some
      { Hash := [1],
        ConfigMap := some { ConfigMap := [([], some { Body := [97], ContentType := [] })] } },
    RemoteConfigStatus := none }

/-- A custom config whose file under the empty name has the body "a". -/
def configA : AgentConfigMap :=
  { ConfigMap := [([], some { Body := [97], ContentType := [] })] }

/-- A custom config whose file under the empty name has the body "b". -/
def configB : AgentConfigMap :=
  { ConfigMap := [([], some { Body := [98], ContentType := [] })] }

/-- The fresh record after `SetCustomConfig` with `configA` and no channel. -/
def agentA : Agent :=
  { InstanceId := [],
    conn := { sent := [{ RemoteConfig := some (bundleOf [97]), Flags := 0 }] },
    Status := none, EffectiveConfig := [], CustomInstanceConfig := [97],
    remoteConfig := some (bundleOf [97]), statusUpdateWatchers := [] }

/-- Channels of capacity one that each hold one signal already. -/
def fullChans : Chans := fun _ => { cap := 1, len := 1 }

/-- A status report that carries nothing: no description, no acknowledgment
and no effective config. -/
def emptyReport : StatusReport :=
  { AgentDescription := none, EffectiveConfig := none, RemoteConfigStatus := none }

/-- A record that holds the status `descrReport` and the bundle of the custom
config "a". -/
def statusAgent : Agent := { agentA with Status := some descrReport }

/-- A status report that carries only a description with one field. -/
def otherDescrReport : StatusReport :=
  { AgentDescription := some { fields := [([97], [98])] }, EffectiveConfig := none,
    RemoteConfigStatus := none }

/-- A bundle with two files, "x" and "y", and an arbitrary hash. -/
def twoFileBundle : AgentRemoteConfig :=
  { Config := some { ConfigMap :=
      [([120], some { Body := [1], ContentType := [2] }),
       ([121], some { Body := [3], ContentType := [] })] },
    ConfigHash := [7] }

/-- The same two files listed in the other order, with another hash. -/
def twoFileBundleSwapped : AgentRemoteConfig :=
  { Config := some { ConfigMap :=
      [([121], some { Body := [3], ContentType := [] }),
       ([120], some { Body := [1], ContentType := [2] })] },
    ConfigHash := [] }

/-- A status report whose effective config has a file map with a nil file
under the empty name. -/
def nilFileReport : StatusReport :=
  { AgentDescription := none,
    EffectiveConfig := some { Hash := [], ConfigMap := some { ConfigMap := [([], none)] } },
    RemoteConfigStatus := none }

/-! ## The supervisor and its configurer (`supervisor/callbacks.go`, `supervisor/agent`) -/

/-- The struct `ConfigSpec`: the path of the local configuration file and the
auto-reload setting. -/
structure ConfigSpec where
  File : Bytes
  AutoReload : Bool
deriving DecidableEq

/-- What the configurer and a restarter act on: the content of the local
configuration source, the number of restarts issued so far, and whether the
process becomes healthy after a restart. -/
structure ManagedProcess where
  configFile : Bytes
  restarts : Nat
  healthyAfterRestart : Bool
deriving DecidableEq

/-- A value of the interface `Restarter`: the managed process after a restart. -/
structure Restarter where
  Restart : ManagedProcess → ManagedProcess

/-- The struct `configurer`, which has no field. -/
structure configurer where
deriving DecidableEq

/-- The result pair `(*protobufs.EffectiveConfig, error)` of the configurer,
together with the managed process as the call leaves it; an error is its message. -/
abbrev ConfigResult := ManagedProcess × Option EffectiveConfig × Option Bytes

/-- The method `configurer.UpdateConfig`: its body is `panic("implement me")`. -/
def configurer.UpdateConfig (_c : configurer) (_managed : ManagedProcess)
    (_configSpec : Option ConfigSpec) (_remoteConfig : Option AgentRemoteConfig)
    (_restarter : Option Restarter) : Outcome ConfigResult :=
  Outcome.panics

/-- The method `configurer.LoadEffectiveConfig`: its body is `panic("implement me")`. -/
def configurer.LoadEffectiveConfig (_c : configurer) (_managed : ManagedProcess)
    (_configSpec : Option ConfigSpec) : Outcome ConfigResult :=
  Outcome.panics

/-- The fields of the struct `supervisor` that `OnRemoteConfig` reads: the
config spec found at `config.AgentSettings.ConfigSpec` (absent when a link of
that chain is nil) and the configurer, an interface value that may be nil. -/
structure supervisor where
  configSpec : Option ConfigSpec
  configurer : Option configurer
deriving DecidableEq

/-- The callback `supervisor.OnRemoteConfig`: it forwards to the configurer
with a nil restarter. -/
def supervisor.OnRemoteConfig (s : supervisor) (managed : ManagedProcess)
    (remoteConfig : Option AgentRemoteConfig) : Outcome ConfigResult :=
  match s.configurer with
  | none => Outcome.panics
  | some c => c.UpdateConfig managed s.configSpec remoteConfig none

/-! ## Lemmas and theorems -/

theorem calcRemoteConfig_eq (agent : Agent) :
    calcRemoteConfig agent =
      some (!isEqualRemoteConfig agent.remoteConfig (some (bundleOf agent.CustomInstanceConfig)),
        { agent with remoteConfig := some (bundleOf agent.CustomInstanceConfig) }) := by
  simp [calcRemoteConfig, mapSet, hashWrites, bundleOf]

theorem sha256Sum_length (data : Bytes) : (sha256Sum data).length = 32 := by
  simp [sha256Sum, wordBytes]

/-- The digest of the empty message, as published in FIPS 180-4 test data. -/
theorem sha256Sum_nil :
    sha256Sum [] =
      [0xe3, 0xb0, 0xc4, 0x42, 0x98, 0xfc, 0x1c, 0x14, 0x9a, 0xfb, 0xf4, 0xc8, 0x99, 0x6f,
       0xb9, 0x24, 0x27, 0xae, 0x41, 0xe4, 0x64, 0x9b, 0x93, 0x4c, 0xa4, 0x95, 0x99, 0x1b,
       0x78, 0x52, 0xb8, 0x55] := by
  decide

/-- The digest of the message "abc", as published in FIPS 180-4 test data. -/
theorem sha256Sum_abc :
    sha256Sum [0x61, 0x62, 0x63] =
      [0xba, 0x78, 0x16, 0xbf, 0x8f, 0x01, 0xcf, 0xea, 0x41, 0x41, 0x40, 0xde, 0x5d, 0xae,
       0x22, 0x23, 0xb0, 0x03, 0x61, 0xa3, 0x96, 0x17, 0x7a, 0x9c, 0xb4, 0x10, 0xff, 0x61,
       0xf2, 0x00, 0x15, 0xad] := by
  decide

theorem isEqualAgentDescr_refl (d : Option AgentDescription) :
    isEqualAgentDescr d d = true := by
  simp [isEqualAgentDescr]

theorem updateStatusField_eq (agent : Agent) (s : StatusReport) :
    updateStatusField agent (some s) =
      some (needCalc agent s, { agent with Status := some (mergedStatus agent s) }) := by
  rcases hS : agent.Status with _ | prev
  · simp [updateStatusField, needCalc, mergedStatus, hS]
  · rcases hd : s.AgentDescription with _ | d <;> rcases hr : s.RemoteConfigStatus with _ | ack
    · simp [updateStatusField, needCalc, mergedStatus, hS, hd, hr]
    · simp [updateStatusField, needCalc, mergedStatus, hS, hd, hr]
    · by_cases he : isEqualAgentDescr prev.AgentDescription (some d) = true <;>
        simp [updateStatusField, needCalc, mergedStatus, hS, hd, hr, he]
    · by_cases he : isEqualAgentDescr prev.AgentDescription (some d) = true <;>
        simp [updateStatusField, needCalc, mergedStatus, hS, hd, hr, he]

theorem updateEffectiveConfig_eq (agent : Agent) (s : StatusReport) (r : ServerToAgent)
    (st : StatusReport) (hst : agent.Status = some st) :
    updateEffectiveConfig agent (some s) (some r) =
      match effectiveText s agent.EffectiveConfig with
      | none => none
      | some text =>
        some ({ agent with
                  Status := some { st with EffectiveConfig := storedEffective st s },
                  EffectiveConfig := text },
              some { r with Flags :=
                if needEffectiveConfig (storedEffective st s) s.EffectiveConfig
                then r.Flags ||| ServerToAgent_ReportEffectiveConfig else r.Flags }) := by
  rcases agent with ⟨i, c, S, E, C, R, W⟩
  simp only at hst
  subst hst
  rcases hs : s.EffectiveConfig with _ | ec
  · by_cases hc : needEffectiveConfig st.EffectiveConfig none = true <;>
      simp [updateEffectiveConfig, effectiveText, storedEffective, hs, hc]
  · rcases hm : ec.ConfigMap with _ | cm
    · by_cases hc : needEffectiveConfig st.EffectiveConfig (some ec) = true <;>
        simp [updateEffectiveConfig, effectiveText, storedEffective, hs, hm, hc]
    · rcases hb : appendBodies cm.ConfigMap [] with _ | text
      · simp [updateEffectiveConfig, effectiveText, storedEffective, hs, hm, hb]
      · by_cases hc : needEffectiveConfig (some ec) (some ec) = true <;>
          simp [updateEffectiveConfig, effectiveText, storedEffective, hs, hm, hb, hc]

theorem UpdateStatus_eq (agent : Agent) (chans : Chans) (s : StatusReport) (r : ServerToAgent) :
    UpdateStatus agent chans (some s) (some r) =
      if readsAbsentBundle agent s then none
      else
        match effectiveText s agent.EffectiveConfig with
        | none => none
        | some text => some (statusUpdateResult agent chans s r text) := by
  have hE : ∀ (a : Agent) (r1 : ServerToAgent), a.Status = some (mergedStatus agent s) →
      updateEffectiveConfig a (some s) (some r1) = _ :=
    fun a r1 h => updateEffectiveConfig_eq a s r1 (mergedStatus agent s) h
  rcases hn : needCalc agent s with _ | _
  · rcases hk : s.RemoteConfigStatus with _ | ack
    · simp only [UpdateStatus, processStatusUpdate, updateStatusField_eq, hn, hk]
      simp [hE, readsAbsentBundle, hn, hk, statusUpdateResult, pushWanted, configChangedBy,
        bundleAfter]
      rcases effectiveText s agent.EffectiveConfig with _ | text <;> simp
    · rcases hc : agent.remoteConfig with _ | rc
      · simp [UpdateStatus, processStatusUpdate, updateStatusField_eq, hn, hk, hc,
          readsAbsentBundle]
      · simp only [UpdateStatus, processStatusUpdate, updateStatusField_eq, hn, hk, hc]
        by_cases hh : ack.LastRemoteConfigHash = rc.ConfigHash
        · simp [hE, readsAbsentBundle, hn, hk, hc, hh, statusUpdateResult, pushWanted,
            configChangedBy, bundleAfter]
          rcases effectiveText s agent.EffectiveConfig with _ | text <;> simp
        · simp [hE, readsAbsentBundle, hn, hk, hc, hh, statusUpdateResult, pushWanted,
            configChangedBy, bundleAfter]
          rcases effectiveText s agent.EffectiveConfig with _ | text <;> simp
  · simp only [UpdateStatus, processStatusUpdate, updateStatusField_eq, hn,
      calcRemoteConfig_eq]
    rcases hq : isEqualRemoteConfig agent.remoteConfig
        (some (bundleOf agent.CustomInstanceConfig)) with _ | _
    · simp [hE, readsAbsentBundle, hn, hq, statusUpdateResult, pushWanted, configChangedBy,
        bundleAfter]
      rcases effectiveText s agent.EffectiveConfig with _ | text <;> simp
    · rcases hk : s.RemoteConfigStatus with _ | ack
      · simp [hE, readsAbsentBundle, hn, hq, hk, statusUpdateResult, pushWanted,
          configChangedBy, bundleAfter]
        rcases effectiveText s agent.EffectiveConfig with _ | text <;> simp
      · by_cases hh : ack.LastRemoteConfigHash = (bundleOf agent.CustomInstanceConfig).ConfigHash
        · simp [hE, readsAbsentBundle, hn, hq, hk, hh, statusUpdateResult, pushWanted,
            configChangedBy, bundleAfter]
          rcases effectiveText s agent.EffectiveConfig with _ | text <;> simp
        · simp [hE, readsAbsentBundle, hn, hq, hk, hh, statusUpdateResult, pushWanted,
            configChangedBy, bundleAfter]
          rcases effectiveText s agent.EffectiveConfig with _ | text <;> simp

theorem effectiveText_none (s : StatusReport) (a b : Bytes)
    (h : effectiveText s a = none) : effectiveText s b = none := by
  unfold effectiveText at h ⊢
  rcases h1 : s.EffectiveConfig with _ | ec
  · simp [h1] at h
  · rcases h2 : ec.ConfigMap with _ | cm
    · simp [h1, h2] at h
    · simpa [h1, h2] using h

theorem pushWanted_iff (agent : Agent) (s : StatusReport) :
    pushWanted agent s = true ↔
      configChangedBy agent s = true ∨
        ∃ ack rc, s.RemoteConfigStatus = some ack ∧ bundleAfter agent s = some rc ∧
          ack.LastRemoteConfigHash ≠ rc.ConfigHash := by
  unfold pushWanted
  rcases hk : s.RemoteConfigStatus with _ | ack <;>
    rcases hb : bundleAfter agent s with _ | rc <;> simp

theorem pushWanted_bundle (agent : Agent) (s : StatusReport) (h : pushWanted agent s = true) :
    ∃ rc, bundleAfter agent s = some rc := by
  rcases (pushWanted_iff agent s).1 h with hc | ⟨_, rc, _, hb, _⟩
  · simp only [configChangedBy, Bool.and_eq_true] at hc
    exact ⟨bundleOf agent.CustomInstanceConfig, by simp [bundleAfter, hc.1]⟩
  · exact ⟨rc, hb⟩

theorem recalculated_iff (agent : Agent) (s : StatusReport) :
    (∃ agent1 agent2, updateStatusField agent (some s) = some (true, agent1) ∧
        calcRemoteConfig agent1 = some (true, agent2)) ↔ configChangedBy agent s = true := by
  simp only [updateStatusField_eq, calcRemoteConfig_eq, configChangedBy]
  constructor
  · rintro ⟨a1, a2, h1, h2⟩
    simp only [Option.some.injEq, Prod.mk.injEq] at h1 h2
    rw [← h1.2] at h2
    simp [h1.1, h2.1]
  · intro h
    simp only [Bool.and_eq_true] at h
    exact ⟨_, _, congrArg some (Prod.ext h.1 rfl), congrArg some (Prod.ext h.2 rfl)⟩

/-- C1. For a status report and a response whose RemoteConfig is unset,
UpdateStatus either panics on a nil dereference (characterised by
`statusUpdatePanics`) or returns, and then the response's RemoteConfig is set
if and only if (a) the bundle was recalculated in this call and
calcRemoteConfig reported a change, or (b) the report carries an
acknowledgment whose LastRemoteConfigHash differs from the ConfigHash of the
record's bundle; when set, it is the record's bundle. -/
theorem updateStatus_push_decision (agent : Agent) (chans : Chans) (s : StatusReport)
    (r : ServerToAgent) (hr : r.RemoteConfig = none) :
    match UpdateStatus agent chans (some s) (some r) with
    | none => statusUpdatePanics agent s
    | some (agent', resp', _) =>
      ∃ r', resp' = some r' ∧
        (r'.RemoteConfig ≠ none ↔
          ((∃ agent1 agent2, updateStatusField agent (some s) = some (true, agent1) ∧
              calcRemoteConfig agent1 = some (true, agent2)) ∨
           (∃ ack rc, s.RemoteConfigStatus = some ack ∧ agent'.remoteConfig = some rc ∧
              ack.LastRemoteConfigHash ≠ rc.ConfigHash))) ∧
        (r'.RemoteConfig ≠ none → r'.RemoteConfig = agent'.remoteConfig) := by
  rw [UpdateStatus_eq, recalculated_iff]
  by_cases hp : readsAbsentBundle agent s = true
  · simp [hp, statusUpdatePanics]
  · rcases ht : effectiveText s agent.EffectiveConfig with _ | text
    · have : effectiveText s [] = none := effectiveText_none s _ _ ht
      simp [hp, statusUpdatePanics, this]
    · simp only [hp, statusUpdateResult]
      refine ⟨_, rfl, ?_, ?_⟩
      · rw [← pushWanted_iff]
        by_cases hw : pushWanted agent s = true
        · obtain ⟨rc, hb⟩ := pushWanted_bundle agent s hw
          simp [hw, hb]
        · simp [hw, hr]
      · by_cases hw : pushWanted agent s = true
        · simp [hw]
        · simp [hw, hr]
/-- Witness of C1: a first report with a description on a fresh record. -/
theorem updateStatus_push_decision_witness :
    emptyResponse.RemoteConfig = none ∧
    (UpdateStatus freshAgent emptyChans (some descrReport) (some emptyResponse)).isSome = true ∧
    match UpdateStatus freshAgent emptyChans (some descrReport) (some emptyResponse) with
    | none => statusUpdatePanics freshAgent descrReport
    | some (agent', resp', _) =>
      ∃ r', resp' = some r' ∧
        (r'.RemoteConfig ≠ none ↔
          ((∃ agent1 agent2, updateStatusField freshAgent (some descrReport) = some (true, agent1) ∧
              calcRemoteConfig agent1 = some (true, agent2)) ∨
           (∃ ack rc, descrReport.RemoteConfigStatus = some ack ∧
              agent'.remoteConfig = some rc ∧ ack.LastRemoteConfigHash ≠ rc.ConfigHash))) ∧
        (r'.RemoteConfig ≠ none → r'.RemoteConfig = agent'.remoteConfig) :=
  ⟨rfl, by decide, updateStatus_push_decision freshAgent emptyChans descrReport emptyResponse rfl⟩

theorem effectiveText_some (s : StatusReport) (a b text : Bytes)
    (h : effectiveText s a = some text) : ∃ t, effectiveText s b = some t := by
  rcases hb : effectiveText s b with _ | t
  · rw [effectiveText_none s b a hb] at h
    exact absurd h (by simp)
  · exact ⟨t, rfl⟩

theorem UpdateStatus_some (agent : Agent) (chans : Chans) (s : StatusReport)
    (r : ServerToAgent) (res : Agent × Option ServerToAgent × Chans)
    (h : UpdateStatus agent chans (some s) (some r) = some res) :
    readsAbsentBundle agent s = false ∧
      ∃ text, effectiveText s agent.EffectiveConfig = some text ∧
        res = statusUpdateResult agent chans s r text := by
  rw [UpdateStatus_eq] at h
  rcases hp : readsAbsentBundle agent s with _ | _
  · rcases ht : effectiveText s agent.EffectiveConfig with _ | text
    · simp [hp, ht] at h
    · simp [hp, ht] at h
      exact ⟨rfl, text, rfl, h.symm⟩
  · simp [hp] at h

theorem needCalc_after (agent : Agent) (chans : Chans) (s : StatusReport)
    (r : ServerToAgent) (text : Bytes) :
    needCalc (statusUpdateResult agent chans s r text).1 s = false := by
  rcases hd : s.AgentDescription with _ | d
  · simp [needCalc, statusUpdateResult, hd]
  · rcases hS : agent.Status with _ | prev
    · simp [needCalc, statusUpdateResult, mergedStatus, hd, hS, isEqualAgentDescr_refl]
    · by_cases he : isEqualAgentDescr prev.AgentDescription (some d) = true
      · simp [needCalc, statusUpdateResult, mergedStatus, hd, hS, he]
      · simp [needCalc, statusUpdateResult, mergedStatus, hd, hS, he, isEqualAgentDescr_refl]

/-- C2 (amended). When UpdateStatus has returned for a report s, a second
UpdateStatus with the same report and a fresh response returns, leaves the
record's bundle (and so its hash) as the first call left it, and sets the
second response's RemoteConfig exactly when s carries an acknowledgment whose
LastRemoteConfigHash differs from that bundle's ConfigHash; in particular the
field is left unset when s carries no acknowledgment. -/
theorem updateStatus_twice (agent : Agent) (chans : Chans) (s : StatusReport)
    (r1 r2 : ServerToAgent) (a1 : Agent) (resp1 : Option ServerToAgent) (c1 : Chans)
    (hfresh : r2.RemoteConfig = none)
    (hfirst : UpdateStatus agent chans (some s) (some r1) = some (a1, resp1, c1)) :
    ∃ a2 r2' c2, UpdateStatus a1 c1 (some s) (some r2) = some (a2, some r2', c2) ∧
      a2.remoteConfig = a1.remoteConfig ∧
      (r2'.RemoteConfig ≠ none ↔
        ∃ ack rc, s.RemoteConfigStatus = some ack ∧ a1.remoteConfig = some rc ∧
          ack.LastRemoteConfigHash ≠ rc.ConfigHash) ∧
      (s.RemoteConfigStatus = none → r2'.RemoteConfig = none) ∧
      (r2'.RemoteConfig ≠ none → r2'.RemoteConfig = a1.remoteConfig) := by
  obtain ⟨hp, text, ht, hres⟩ := UpdateStatus_some agent chans s r1 _ hfirst
  have ha1 : a1 = (statusUpdateResult agent chans s r1 text).1 := by rw [← hres]
  have hn : needCalc a1 s = false := by rw [ha1]; exact needCalc_after agent chans s r1 text
  have hb : bundleAfter a1 s = a1.remoteConfig := by simp [bundleAfter, hn]
  have hcc : configChangedBy a1 s = false := by simp [configChangedBy, hn]
  have hp2 : readsAbsentBundle a1 s = false := by
    rcases hk : s.RemoteConfigStatus with _ | ack
    · simp [readsAbsentBundle, hk]
    · have : a1.remoteConfig = bundleAfter agent s := by rw [ha1]; rfl
      rcases hnn : needCalc agent s with _ | _
      · simp [readsAbsentBundle, hnn, hk] at hp
        rcases hrc : agent.remoteConfig with _ | rc
        · simp [hrc] at hp
        · simp [readsAbsentBundle, this, bundleAfter, hnn, hrc]
      · simp [readsAbsentBundle, this, bundleAfter, hnn]
  obtain ⟨t2, ht2⟩ := effectiveText_some s agent.EffectiveConfig a1.EffectiveConfig text ht
  have hw := pushWanted_iff a1 s
  rw [hcc, hb] at hw
  simp only [Bool.false_eq_true, false_or] at hw
  refine ⟨_, _, _, by rw [UpdateStatus_eq, hp2, ht2]; rfl, by simp [hb], ?_, ?_, ?_⟩
  · rw [← hw]
    by_cases hpw : pushWanted a1 s = true
    · obtain ⟨ack, rc, _, h3, _⟩ := hw.1 hpw
      simp [hpw, hb, h3]
    · simp [hpw, hfresh]
  · intro hk
    have : ¬ pushWanted a1 s = true := by
      rw [hw]
      simp [hk]
    simp [this, hfresh]
  · by_cases hpw : pushWanted a1 s = true
    · simp [hpw, hb]
    · simp [hpw, hfresh]

/-- Witness of C2 (amended): a description-only report sent twice to a fresh record. -/
theorem updateStatus_twice_witness :
    ∃ a1 resp1 c1,
      emptyResponse.RemoteConfig = none ∧
      UpdateStatus freshAgent emptyChans (some descrReport) (some emptyResponse) =
        some (a1, resp1, c1) ∧
      ∃ a2 r2' c2, UpdateStatus a1 c1 (some descrReport) (some emptyResponse) =
          some (a2, some r2', c2) ∧
        a2.remoteConfig = a1.remoteConfig ∧
        (r2'.RemoteConfig ≠ none ↔
          ∃ ack rc, descrReport.RemoteConfigStatus = some ack ∧ a1.remoteConfig = some rc ∧
            ack.LastRemoteConfigHash ≠ rc.ConfigHash) ∧
        (descrReport.RemoteConfigStatus = none → r2'.RemoteConfig = none) ∧
        (r2'.RemoteConfig ≠ none → r2'.RemoteConfig = a1.remoteConfig) :=
  ⟨_, _, _, rfl, rfl,
    updateStatus_twice freshAgent emptyChans descrReport emptyResponse emptyResponse _ _ _
      rfl rfl⟩

/-- C2 (counterexample). A report that acknowledges a hash other than the
bundle's is answered with the bundle both times: on a fresh record both calls
return and the second response, fresh again, has its RemoteConfig set to the
bundle. -/
theorem updateStatus_twice_counterexample :
    (UpdateStatus freshAgent emptyChans (some staleAckReport) (some emptyResponse)).bind
      (fun first =>
        (UpdateStatus first.1 first.2.2 (some staleAckReport) (some emptyResponse)).bind
          (fun second => second.2.1.bind (fun r2 => r2.RemoteConfig))) =
      some { Config := some { ConfigMap := [([], some { Body := [], ContentType := [] })] },
             ConfigHash := sha256Sum [] } := by
  decide

theorem needEffectiveConfig_iff (stored incoming : Option EffectiveConfig) :
    needEffectiveConfig stored incoming = true ↔
      stored = none ∨ incoming = none ∨ (∃ e, stored = some e ∧ e.ConfigMap = none) ∨
        ∃ e i, stored = some e ∧ incoming = some i ∧ e.Hash ≠ i.Hash := by
  rcases stored with _ | e <;> rcases incoming with _ | i
  · simp [needEffectiveConfig]
  · simp [needEffectiveConfig]
  · simp [needEffectiveConfig]
  · rcases hm : e.ConfigMap with _ | cm <;> simp [needEffectiveConfig, hm]

/-- C3 (counterexample). A first report that carries an agent description and
an effective config with a file map is answered with the bundle but without
the ReportEffectiveConfig bit: the response's Flags stay 0. -/
theorem firstReport_counterexample :
    (UpdateStatus freshAgent emptyChans (some fullReport) (some emptyResponse)).map
      (fun res => res.2.1.map (fun r => (r.RemoteConfig.isSome, r.Flags))) =
      some (some (true, 0)) := by
  decide

/-- C3 (amended). Scenario A: on a record fresh from NewAgent, a first status
report that carries an agent description and no effective config with a file
map makes UpdateStatus return with the response's RemoteConfig set to the
record's bundle, whose config map has exactly one file, named by the empty
string, with an empty body and an empty content type, and with the
ReportEffectiveConfig bit set in the response's Flags. -/
theorem firstReport_scenario (instanceId : Bytes) (conn : Connection) (chans : Chans)
    (s : StatusReport) (r : ServerToAgent) (_hdescr : s.AgentDescription ≠ none)
    (heff : s.EffectiveConfig = none ∨
      ∃ ec, s.EffectiveConfig = some ec ∧ ec.ConfigMap = none) :
    ∃ a' r' c', UpdateStatus (NewAgent instanceId conn) chans (some s) (some r) =
        some (a', some r', c') ∧
      r'.RemoteConfig = a'.remoteConfig ∧
      (∃ rc, r'.RemoteConfig = some rc ∧
        rc.Config = some { ConfigMap := [([], some { Body := [], ContentType := [] })] } ∧
        rc.ConfigHash = sha256Sum []) ∧
      r'.Flags = r.Flags ||| ServerToAgent_ReportEffectiveConfig ∧
      r'.Flags.testBit 0 = true := by
  generalize hag : NewAgent instanceId conn = a
  have hS : a.Status = none := by rw [← hag]; rfl
  have hR : a.remoteConfig = none := by rw [← hag]; rfl
  have hC : a.CustomInstanceConfig = [] := by rw [← hag]; rfl
  have hE : a.EffectiveConfig = [] := by rw [← hag]; rfl
  have hn : needCalc a s = true := by simp [needCalc, hS]
  have hp : readsAbsentBundle a s = false := by simp [readsAbsentBundle, hn]
  have ht : effectiveText s a.EffectiveConfig = some [] := by
    rcases heff with h | ⟨ec, h, hm⟩ <;> simp [effectiveText, h, hE, *]
  have hneed : needEffectiveConfig (storedEffective (mergedStatus a s) s) s.EffectiveConfig
      = true := by
    rcases heff with h | ⟨ec, h, hm⟩ <;>
      simp [needEffectiveConfig, storedEffective, mergedStatus, hS, h, *]
  have hw : pushWanted a s = true := by
    simp [pushWanted, configChangedBy, hn, hR, isEqualRemoteConfig]
  refine ⟨_, _, _, by rw [UpdateStatus_eq, hp, ht]; rfl, ?_, ?_, ?_, ?_⟩
  · simp [hw]
  · simp [hw, bundleAfter, hn, bundleOf, hC]
  · simp [hneed]
  · simp [hneed, ServerToAgent_ReportEffectiveConfig]

/-- Witness of C3 (amended): a description-only first report. -/
theorem firstReport_scenario_witness :
    descrReport.AgentDescription ≠ none ∧
    ∃ a' r' c', UpdateStatus (NewAgent [] { sent := [] }) emptyChans (some descrReport)
        (some emptyResponse) = some (a', some r', c') ∧
      r'.RemoteConfig = a'.remoteConfig ∧
      (∃ rc, r'.RemoteConfig = some rc ∧
        rc.Config = some { ConfigMap := [([], some { Body := [], ContentType := [] })] } ∧
        rc.ConfigHash = sha256Sum []) ∧
      r'.Flags = emptyResponse.Flags ||| ServerToAgent_ReportEffectiveConfig ∧
      r'.Flags.testBit 0 = true :=
  ⟨by decide, firstReport_scenario [] { sent := [] } emptyChans descrReport emptyResponse
    (by decide) (Or.inl rfl)⟩

/-- C4. On a present report and response UpdateStatus either panics on a nil
dereference or returns; when it returns, with `st` the status stored in the
record after the call, it has or-ed the ReportEffectiveConfig bit into the
response's Flags exactly when the record has no stored effective config, or
the incoming report omitted its effective config, or the stored effective
config has no file map, or the stored hash differs from the incoming hash; all
other bits of Flags are as they were before the call. -/
theorem updateStatus_report_flag (agent : Agent) (chans : Chans) (s : StatusReport)
    (r : ServerToAgent) :
    match UpdateStatus agent chans (some s) (some r) with
    | none => statusUpdatePanics agent s
    | some (agent', resp', _) =>
      ∃ st r', agent'.Status = some st ∧ resp' = some r' ∧
        ((st.EffectiveConfig = none ∨ s.EffectiveConfig = none ∨
            (∃ e, st.EffectiveConfig = some e ∧ e.ConfigMap = none) ∨
            (∃ e i, st.EffectiveConfig = some e ∧ s.EffectiveConfig = some i ∧
              e.Hash ≠ i.Hash)) →
          r'.Flags = r.Flags ||| ServerToAgent_ReportEffectiveConfig ∧
            r'.Flags.testBit 0 = true) ∧
        (¬ (st.EffectiveConfig = none ∨ s.EffectiveConfig = none ∨
            (∃ e, st.EffectiveConfig = some e ∧ e.ConfigMap = none) ∨
            (∃ e i, st.EffectiveConfig = some e ∧ s.EffectiveConfig = some i ∧
              e.Hash ≠ i.Hash)) →
          r'.Flags = r.Flags) ∧
        ∀ i, i ≠ 0 → r'.Flags.testBit i = r.Flags.testBit i := by
  rw [UpdateStatus_eq]
  by_cases hp : readsAbsentBundle agent s = true
  · simp [hp, statusUpdatePanics]
  · rcases ht : effectiveText s agent.EffectiveConfig with _ | text
    · simp [hp, statusUpdatePanics, effectiveText_none s _ [] ht]
    · simp only [hp, statusUpdateResult]
      refine ⟨_, _, rfl, rfl, ?_, ?_, ?_⟩
      · intro h
        rw [← needEffectiveConfig_iff] at h
        simp [h, ServerToAgent_ReportEffectiveConfig]
      · intro h
        rw [← needEffectiveConfig_iff] at h
        simp [h]
      · intro i hi
        have h1 : Nat.testBit 1 i = false := by
          rcases hb : Nat.testBit 1 i with _ | _
          · rfl
          · exact absurd (Nat.testBit_one_eq_true_iff_self_eq_zero.1 hb) hi
        by_cases hc : needEffectiveConfig
            (storedEffective (mergedStatus agent s) s) s.EffectiveConfig = true
        · simp [hc, ServerToAgent_ReportEffectiveConfig, h1]
        · simp [hc]

theorem updateStatusField_frame (agent : Agent) (ns : Option StatusReport) (need : Bool)
    (a1 : Agent) (h : updateStatusField agent ns = some (need, a1)) :
    a1.remoteConfig = agent.remoteConfig ∧
      a1.CustomInstanceConfig = agent.CustomInstanceConfig ∧ a1.conn = agent.conn ∧
      a1.statusUpdateWatchers = agent.statusUpdateWatchers := by
  unfold updateStatusField at h
  rcases hS : agent.Status with _ | prev
  · simp [hS] at h
    rw [← h.2]
    simp
  · rcases ns with _ | s
    · simp [hS] at h
    · simp [hS] at h
      rw [← h.2]
      simp

theorem updateEffectiveConfig_frame (agent : Agent) (ns : Option StatusReport)
    (resp : Option ServerToAgent) (a1 : Agent) (r1 : Option ServerToAgent)
    (h : updateEffectiveConfig agent ns resp = some (a1, r1)) :
    a1.remoteConfig = agent.remoteConfig ∧
      a1.CustomInstanceConfig = agent.CustomInstanceConfig ∧ a1.conn = agent.conn ∧
      a1.statusUpdateWatchers = agent.statusUpdateWatchers := by
  unfold updateEffectiveConfig at h
  rcases ns with _ | s
  · simp at h
  · simp only at h
    split at h
    · simp at h
    · rename_i agent1 hst
      have hfr : agent1.remoteConfig = agent.remoteConfig ∧
          agent1.CustomInstanceConfig = agent.CustomInstanceConfig ∧
          agent1.conn = agent.conn ∧
          agent1.statusUpdateWatchers = agent.statusUpdateWatchers := by
        repeat' split at hst
        all_goals simp at hst
        all_goals (rw [← hst]; simp)
      split at h
      · simp at h
      · split at h
        · split at h
          · simp at h
          · simp at h
            rw [← h.1]
            exact hfr
        · simp at h
          rw [← h.1]
          exact hfr

theorem processStatusUpdate_frame (agent : Agent) (ns : Option StatusReport)
    (resp : Option ServerToAgent) (a1 : Agent) (r1 : Option ServerToAgent)
    (h : processStatusUpdate agent ns resp = some (a1, r1)) :
    (a1.remoteConfig = agent.remoteConfig ∨
        a1.remoteConfig = some (bundleOf agent.CustomInstanceConfig)) ∧
      a1.CustomInstanceConfig = agent.CustomInstanceConfig ∧ a1.conn = agent.conn ∧
      a1.statusUpdateWatchers = agent.statusUpdateWatchers := by
  unfold processStatusUpdate at h
  rcases hu : updateStatusField agent ns with _ | ⟨need, ag1⟩
  · simp [hu] at h
  · obtain ⟨f1, f2, f3, f4⟩ := updateStatusField_frame agent ns need ag1 hu
    simp only [hu, calcRemoteConfig_eq] at h
    have key : ∀ (ag2 : Agent) (x : Option ServerToAgent),
        updateEffectiveConfig ag2 ns x = some (a1, r1) →
        (ag2.remoteConfig = agent.remoteConfig ∨
          ag2.remoteConfig = some (bundleOf agent.CustomInstanceConfig)) →
        ag2.CustomInstanceConfig = agent.CustomInstanceConfig → ag2.conn = agent.conn →
        ag2.statusUpdateWatchers = agent.statusUpdateWatchers →
        (a1.remoteConfig = agent.remoteConfig ∨
          a1.remoteConfig = some (bundleOf agent.CustomInstanceConfig)) ∧
        a1.CustomInstanceConfig = agent.CustomInstanceConfig ∧ a1.conn = agent.conn ∧
        a1.statusUpdateWatchers = agent.statusUpdateWatchers := by
      intro ag2 x hx h1 h2 h3 h4
      obtain ⟨g1, g2, g3, g4⟩ := updateEffectiveConfig_frame ag2 ns x a1 r1 hx
      rw [g1, g2, g3, g4]
      exact ⟨h1, h2, h3, h4⟩
    rcases need with _ | _
    · simp only [Bool.false_eq_true, if_false] at h
      repeat' split at h
      all_goals first
        | (exact absurd h (by simp))
        | (refine key _ _ h (Or.inl f1) f2 f3 f4)
    · simp only [if_true] at h
      repeat' split at h
      all_goals first
        | (exact absurd h (by simp))
        | (refine key _ _ h (Or.inr (by simp [f2])) (by simp [f2]) (by simp [f3]) (by simp [f4]))

theorem SetCustomConfig_eq (agent : Agent) (chans : Chans) (cfg : AgentConfigMap)
    (file : AgentConfigFile) (notify : Option ChanId)
    (hfile : mapIndex cfg.ConfigMap [] = some file) :
    SetCustomConfig agent chans (some cfg) notify =
      if isEqualRemoteConfig agent.remoteConfig (some (bundleOf file.Body)) then
        match notify with
        | some ch =>
          if (chans ch).len < (chans ch).cap then
            Outcome.returns (keptAgent agent file.Body, chanPut chans ch)
          else Outcome.blocks (keptAgent agent file.Body, chans)
        | none => Outcome.returns (keptAgent agent file.Body, chans)
      else Outcome.returns (pushedAgent agent file.Body notify, chans) := by
  simp only [SetCustomConfig, hfile, calcRemoteConfig_eq, SendToAgent, keptAgent, pushedAgent]
  rcases isEqualRemoteConfig agent.remoteConfig (some (bundleOf file.Body)) with _ | _
  · rcases notify with _ | ch <;> simp
  · rcases notify with _ | ch <;> simp

theorem SetCustomConfig_left (agent : Agent) (chans : Chans) (config : Option AgentConfigMap)
    (notify : Option ChanId) (a1 : Agent) (c1 : Chans)
    (h : (SetCustomConfig agent chans config notify).left = some (a1, c1)) :
    a1.remoteConfig = some (bundleOf a1.CustomInstanceConfig) := by
  rcases config with _ | cfg
  · simp [SetCustomConfig, Outcome.left] at h
  · rcases hfile : mapIndex cfg.ConfigMap [] with _ | file
    · simp [SetCustomConfig, hfile, Outcome.left] at h
    · rw [SetCustomConfig_eq agent chans cfg file notify hfile] at h
      repeat' split at h
      all_goals
        simp only [Outcome.left, Option.some.injEq, Prod.mk.injEq] at h
        rw [← h.1]
        rfl

theorem bundleOf_hashFresh (body : Bytes) : HashFresh (bundleOf body) :=
  ⟨_, body, rfl, by simp [hashWrites], rfl⟩

theorem reachable_bundle (agent : Agent) (chans : Chans) (h : Reachable agent chans) :
    agent.remoteConfig = none ∨
      agent.remoteConfig = some (bundleOf agent.CustomInstanceConfig) := by
  induction h with
  | newAgent instanceId conn chans => exact Or.inl rfl
  | updateStatus ns resp _ hcall ih =>
    unfold UpdateStatus at hcall
    split at hcall
    · simp at hcall
    · rename_i a1 r1 hp
      simp only [Option.some.injEq, Prod.mk.injEq] at hcall
      obtain ⟨f1, f2, _, _⟩ := processStatusUpdate_frame _ ns resp a1 r1 hp
      rw [← hcall.1]
      simp only
      rw [f2]
      rcases f1 with f1 | f1
      · rw [f1]; exact ih
      · exact Or.inr f1
  | setCustomConfig config notify _ hcall _ =>
    exact Or.inr (SetCustomConfig_left _ _ config notify _ _ hcall)
  | channels _ _ ih => exact ih

/-- C5. Hash freshness: in every state reachable from NewAgent by UpdateStatus
and SetCustomConfig calls, the record's bundle is absent or its ConfigHash is
the SHA-256 digest of the bytes written for the entries of its own config map
(key, body and content type of each entry). -/
theorem reachable_hashFresh (agent : Agent) (chans : Chans) (h : Reachable agent chans) :
    agent.remoteConfig = none ∨
      ∃ rc cm written, agent.remoteConfig = some rc ∧ rc.Config = some cm ∧
        hashWrites cm.ConfigMap [] = some written ∧ rc.ConfigHash = sha256Sum written := by
  rcases reachable_bundle agent chans h with h0 | h1
  · exact Or.inl h0
  · obtain ⟨cm, written, e1, e2, e3⟩ := bundleOf_hashFresh agent.CustomInstanceConfig
    exact Or.inr ⟨_, cm, written, h1, e1, e2, e3⟩

/-- Witness of C5: the record after one SetCustomConfig call on a fresh record. -/
theorem reachable_hashFresh_witness :
    Reachable agentA emptyChans ∧
      (agentA.remoteConfig = none ∨
        ∃ rc cm written, agentA.remoteConfig = some rc ∧ rc.Config = some cm ∧
          hashWrites cm.ConfigMap [] = some written ∧ rc.ConfigHash = sha256Sum written) :=
  (fun h => ⟨h, reachable_hashFresh agentA emptyChans h⟩)
    (Reachable.setCustomConfig (some configA) none
      (Reachable.newAgent [] { sent := [] } emptyChans) rfl)

/-- C6. Hash determinism: for two records with the same CustomInstanceConfig,
whatever their other fields, calcRemoteConfig returns on both and stores equal
bundles: the config map has one entry under the empty name holding the custom
config body with an empty content type, and the ConfigHash is the SHA-256
digest of the body alone. -/
theorem calcRemoteConfig_deterministic (a b : Agent)
    (hsame : a.CustomInstanceConfig = b.CustomInstanceConfig) :
    ∃ ca cb a' b' rc, calcRemoteConfig a = some (ca, a') ∧ calcRemoteConfig b = some (cb, b') ∧
      a'.remoteConfig = some rc ∧ b'.remoteConfig = some rc ∧
      rc.Config = some { ConfigMap :=
        [([], some { Body := a.CustomInstanceConfig, ContentType := [] })] } ∧
      rc.ConfigHash = sha256Sum a.CustomInstanceConfig := by
  refine ⟨_, _, _, _, bundleOf a.CustomInstanceConfig, calcRemoteConfig_eq a,
    calcRemoteConfig_eq b, rfl, ?_, rfl, rfl⟩
  simp [hsame]

/-- Witness of C6: a fresh record and a record that already holds status,
bundle, sent messages and a pending signal, both with custom config "a". -/
theorem calcRemoteConfig_deterministic_witness :
    ({ freshAgent with CustomInstanceConfig := [97] } : Agent).CustomInstanceConfig =
      ({ agentA with Status := some descrReport, statusUpdateWatchers := [3],
                     remoteConfig := none } : Agent).CustomInstanceConfig ∧
    ∃ ca cb a' b' rc,
      calcRemoteConfig { freshAgent with CustomInstanceConfig := [97] } = some (ca, a') ∧
      calcRemoteConfig { agentA with Status := some descrReport, statusUpdateWatchers := [3],
                                     remoteConfig := none } = some (cb, b') ∧
      a'.remoteConfig = some rc ∧ b'.remoteConfig = some rc ∧
      rc.Config = some { ConfigMap := [([], some { Body := [97], ContentType := [] })] } ∧
      rc.ConfigHash = sha256Sum [97] :=
  ⟨rfl, calcRemoteConfig_deterministic _ _ rfl⟩

theorem sha256Sum_collision : ∃ c1 c2 : Bytes, c1 ≠ c2 ∧ sha256Sum c1 = sha256Sum c2 := by
  let f : (Fin 33 → Byte) → (Fin 32 → Byte) :=
    fun v i => (sha256Sum (List.ofFn v)).getD i.val 0
  have hcard : Fintype.card (Fin 32 → Byte) < Fintype.card (Fin 33 → Byte) := by
    simp only [Fintype.card_fun, Fintype.card_fin]
    norm_num
  obtain ⟨v, w, hne, heq⟩ := Fintype.exists_ne_map_eq_of_card_lt f hcard
  refine ⟨List.ofFn v, List.ofFn w, fun h => hne (List.ofFn_injective h), ?_⟩
  apply List.ext_getElem
  · rw [sha256Sum_length, sha256Sum_length]
  · intro i h1 h2
    have hi : i < 32 := by rw [sha256Sum_length] at h1; exact h1
    have := congrFun heq ⟨i, hi⟩
    simp only [f, List.getD_eq_getElem?_getD] at this
    rw [List.getElem?_eq_getElem h1, List.getElem?_eq_getElem h2] at this
    simpa using this

theorem isEqualRemoteConfig_bundleOf (x y : Bytes) :
    isEqualRemoteConfig (some (bundleOf x)) (some (bundleOf y)) = decide (x = y) := by
  by_cases h : x = y <;>
    simp [isEqualRemoteConfig, isEqualConfigSet, bundleOf, mapLookup, isEqualConfigFile, h]

/-- C7 (counterexample). The claim fails for some pair of distinct bodies:
SHA-256 maps the bodies of 33 bytes into digests of 32 bytes, so two distinct
bodies c1 and c2 have the same digest, and SetCustomConfig with c2 after
SetCustomConfig with c1 on a fresh record sends a bundle whose ConfigHash
equals the ConfigHash of the bundle produced for c1. -/
theorem setCustomConfig_twice_counterexample :
    ∃ c1 c2 : Bytes, c1 ≠ c2 ∧ ∃ a1 ch1 a2 ch2 rc1 rc2,
      SetCustomConfig freshAgent emptyChans
        (some { ConfigMap := [([], some { Body := c1, ContentType := [] })] }) none =
          Outcome.returns (a1, ch1) ∧
      a1.remoteConfig = some rc1 ∧
      SetCustomConfig a1 ch1
        (some { ConfigMap := [([], some { Body := c2, ContentType := [] })] }) none =
          Outcome.returns (a2, ch2) ∧
      a2.conn.sent = a1.conn.sent ++ [{ RemoteConfig := some rc2, Flags := 0 }] ∧
      rc2.ConfigHash = rc1.ConfigHash := by
  obtain ⟨c1, c2, hne, hcol⟩ := sha256Sum_collision
  refine ⟨c1, c2, hne, pushedAgent freshAgent c1 none, emptyChans,
    pushedAgent (pushedAgent freshAgent c1 none) c2 none, emptyChans, bundleOf c1, bundleOf c2,
    ?_, rfl, ?_, rfl, hcol.symm⟩
  · rw [SetCustomConfig_eq freshAgent emptyChans _ { Body := c1, ContentType := [] } none
      (by simp [mapIndex, mapLookup])]
    simp [freshAgent, NewAgent, isEqualRemoteConfig]
  · rw [SetCustomConfig_eq _ _ _ { Body := c2, ContentType := [] } none
      (by simp [mapIndex, mapLookup])]
    simp [pushedAgent, isEqualRemoteConfig_bundleOf, hne]

/-- C7 (amended). For a config whose empty-name file has body c1 and a config
whose empty-name file has a different body c2, the first SetCustomConfig never
panics, and a SetCustomConfig with the second config right after it returns
having sent exactly one message to the connection; the message carries the
record's new bundle, whose only file has body c2, whose config map differs from
the one produced for c1, and whose ConfigHash is the SHA-256 digest of c2 where
the hash for c1 was the SHA-256 digest of c1. -/
theorem setCustomConfig_twice (agent : Agent) (chans : Chans) (cfg1 cfg2 : AgentConfigMap)
    (f1 f2 : AgentConfigFile) (n1 n2 : Option ChanId)
    (h1 : mapIndex cfg1.ConfigMap [] = some f1) (h2 : mapIndex cfg2.ConfigMap [] = some f2)
    (hne : f1.Body ≠ f2.Body) :
    ∃ a1 c1 rc1, (SetCustomConfig agent chans (some cfg1) n1).left = some (a1, c1) ∧
      a1.remoteConfig = some rc1 ∧ rc1.ConfigHash = sha256Sum f1.Body ∧
      ∀ c1' : Chans, ∃ a2 rc2,
        SetCustomConfig a1 c1' (some cfg2) n2 = Outcome.returns (a2, c1') ∧
        a2.conn.sent = a1.conn.sent ++ [{ RemoteConfig := some rc2, Flags := 0 }] ∧
        a2.remoteConfig = some rc2 ∧
        rc2.Config = some { ConfigMap := [([], some { Body := f2.Body, ContentType := [] })] } ∧
        rc2.Config ≠ rc1.Config ∧
        rc2.ConfigHash = sha256Sum f2.Body := by
  have key : ∀ (a1 : Agent), a1.remoteConfig = some (bundleOf f1.Body) →
      ∀ c1' : Chans, ∃ a2 rc2,
        SetCustomConfig a1 c1' (some cfg2) n2 = Outcome.returns (a2, c1') ∧
        a2.conn.sent = a1.conn.sent ++ [{ RemoteConfig := some rc2, Flags := 0 }] ∧
        a2.remoteConfig = some rc2 ∧
        rc2.Config = some { ConfigMap := [([], some { Body := f2.Body, ContentType := [] })] } ∧
        rc2.Config ≠ (bundleOf f1.Body).Config ∧
        rc2.ConfigHash = sha256Sum f2.Body := by
    intro a1 hb c1'
    refine ⟨pushedAgent a1 f2.Body n2, bundleOf f2.Body, ?_, rfl, rfl, rfl, ?_, rfl⟩
    · rw [SetCustomConfig_eq a1 c1' cfg2 f2 n2 h2, hb, isEqualRemoteConfig_bundleOf]
      simp [hne]
    · simp [bundleOf, Ne.symm hne]
  rw [SetCustomConfig_eq agent chans cfg1 f1 n1 h1]
  repeat' split
  all_goals exact ⟨_, _, bundleOf f1.Body, rfl, rfl, rfl, key _ rfl⟩

/-- Witness of C7 (amended): body "a" followed by body "b" on a fresh record. -/
theorem setCustomConfig_twice_witness :
    mapIndex configA.ConfigMap [] = some { Body := [97], ContentType := [] } ∧
    mapIndex configB.ConfigMap [] = some { Body := [98], ContentType := [] } ∧
    ([97] : Bytes) ≠ [98] ∧
    ∃ a1 c1 rc1, (SetCustomConfig freshAgent emptyChans (some configA) none).left =
        some (a1, c1) ∧
      a1.remoteConfig = some rc1 ∧ rc1.ConfigHash = sha256Sum [97] ∧
      ∀ c1' : Chans, ∃ a2 rc2,
        SetCustomConfig a1 c1' (some configB) (some 0) = Outcome.returns (a2, c1') ∧
        a2.conn.sent = a1.conn.sent ++ [{ RemoteConfig := some rc2, Flags := 0 }] ∧
        a2.remoteConfig = some rc2 ∧
        rc2.Config = some { ConfigMap := [([], some { Body := [98], ContentType := [] })] } ∧
        rc2.Config ≠ rc1.Config ∧
        rc2.ConfigHash = sha256Sum [98] :=
  ⟨by decide, by decide, by decide,
    setCustomConfig_twice freshAgent emptyChans configA configB
      { Body := [97], ContentType := [] } { Body := [98], ContentType := [] } none (some 0)
      (by decide) (by decide) (by decide)⟩

theorem trySend_other (chans : Chans) (ch other : ChanId) (h : other ≠ ch) :
    trySend chans ch other = chans other := by
  unfold trySend
  split
  · simp [chanPut, h]
  · rfl

theorem trySend_same (chans : Chans) (ch : ChanId) :
    (trySend chans ch ch).cap = (chans ch).cap ∧
      (trySend chans ch ch).len =
        if (chans ch).len < (chans ch).cap then (chans ch).len + 1 else (chans ch).len := by
  unfold trySend
  split <;> simp [chanPut]

theorem notifyStatusWatchers_not_mem (watchers : List ChanId) (chans : Chans) (ch : ChanId)
    (h : ch ∉ watchers) : notifyStatusWatchers watchers chans ch = chans ch := by
  induction watchers generalizing chans with
  | nil => rfl
  | cons w ws ih =>
    simp only [List.mem_cons, not_or] at h
    simp only [notifyStatusWatchers, List.foldl_cons]
    have := ih (trySend chans w) h.2
    simp only [notifyStatusWatchers] at this
    rw [this, trySend_other chans w ch h.1]

theorem notifyStatusWatchers_append (watchers : List ChanId) (chans : Chans) (ch : ChanId) :
    notifyStatusWatchers (watchers ++ [ch]) chans =
      trySend (notifyStatusWatchers watchers chans) ch := by
  simp [notifyStatusWatchers, List.foldl_append]

theorem UpdateStatus_watchers (agent : Agent) (chans : Chans) (ns : Option StatusReport)
    (resp : Option ServerToAgent) (a1 : Agent) (r1 : Option ServerToAgent) (c1 : Chans)
    (h : UpdateStatus agent chans ns resp = some (a1, r1, c1)) :
    a1.statusUpdateWatchers = [] ∧
      c1 = notifyStatusWatchers agent.statusUpdateWatchers chans := by
  unfold UpdateStatus at h
  split at h
  · simp at h
  · rename_i a r hp
    obtain ⟨_, _, _, f4⟩ := processStatusUpdate_frame agent ns resp a r hp
    simp only [Option.some.injEq, Prod.mk.injEq] at h
    rw [← h.1, ← h.2.2, f4]
    exact ⟨rfl, rfl⟩

/-- C8 (counterexample). A channel of capacity one that already holds a signal
is given to a SetCustomConfig call that changes the bundle: the call delivers
nothing (the channel still holds 1 signal), the UpdateStatus that follows
drops its signal (still 1) and empties the pending list, so no signal is ever
delivered on account of the call. -/
theorem setCustomConfig_signal_counterexample :
    ((SetCustomConfig freshAgent fullChans (some configA) (some 0)).returned.bind
      (fun st =>
        (UpdateStatus st.1 st.2 (some descrReport) (some emptyResponse)).map
          (fun res => ((fullChans 0).cap, (st.2 0).len, (res.2.2 0).len,
            res.1.statusUpdateWatchers)))) =
      some (1, 1, 1, []) := by
  decide

/-- C8 (amended). SetCustomConfig with a channel that is not already pending
makes exactly one attempt to signal it. If the bundle is unchanged the attempt
is a blocking send during the call: the signal is delivered when the channel
has room, and the call blocks otherwise; nothing is added to the pending list.
If the bundle changed, the call returns without touching the channels and
with the channel appended to the pending list; the UpdateStatus that follows
either panics on a nil file of the incoming effective config or returns having
made one non-blocking send, which delivers one signal when the channel has
room at that moment and none otherwise, and having emptied the pending list,
so that a further UpdateStatus leaves the channels as they are. -/
theorem setCustomConfig_signal (agent : Agent) (chans : Chans) (cfg : AgentConfigMap)
    (file : AgentConfigFile) (ch : ChanId)
    (hfile : mapIndex cfg.ConfigMap [] = some file)
    (hnew : ch ∉ agent.statusUpdateWatchers) :
    (∃ a0 a1, calcRemoteConfig { agent with CustomInstanceConfig := file.Body } =
          some (false, a0) ∧
        a1.statusUpdateWatchers = agent.statusUpdateWatchers ∧
        ((chans ch).len < (chans ch).cap →
          SetCustomConfig agent chans (some cfg) (some ch) =
            Outcome.returns (a1, chanPut chans ch) ∧
          (chanPut chans ch ch).len = (chans ch).len + 1) ∧
        (¬ (chans ch).len < (chans ch).cap →
          SetCustomConfig agent chans (some cfg) (some ch) = Outcome.blocks (a1, chans))) ∨
    (∃ a0 a1, calcRemoteConfig { agent with CustomInstanceConfig := file.Body } =
          some (true, a0) ∧
        SetCustomConfig agent chans (some cfg) (some ch) = Outcome.returns (a1, chans) ∧
        a1.statusUpdateWatchers = agent.statusUpdateWatchers ++ [ch] ∧
        ∀ (c1 : Chans) (s : StatusReport) (r : ServerToAgent),
          match UpdateStatus a1 c1 (some s) (some r) with
          | none => effectiveText s [] = none
          | some (a2, _, c2) =>
            a2.statusUpdateWatchers = [] ∧
            (c2 ch).cap = (c1 ch).cap ∧
            (c2 ch).len =
              (if (c1 ch).len < (c1 ch).cap then (c1 ch).len + 1 else (c1 ch).len) ∧
            ∀ (c3 : Chans) (ns : Option StatusReport) (resp : Option ServerToAgent)
              (a3 : Agent) (r3 : Option ServerToAgent) (c4 : Chans),
              UpdateStatus a2 c3 ns resp = some (a3, r3, c4) → c4 = c3) := by
  rcases hq : isEqualRemoteConfig agent.remoteConfig (some (bundleOf file.Body)) with _ | _
  · right
    refine ⟨keptAgent agent file.Body, pushedAgent agent file.Body (some ch), ?_, ?_, ?_, ?_⟩
    · rw [calcRemoteConfig_eq]
      simp [hq, keptAgent]
    · rw [SetCustomConfig_eq agent chans cfg file (some ch) hfile]
      simp [hq]
    · simp [pushedAgent]
    · intro c1 s r
      rcases hu : UpdateStatus (pushedAgent agent file.Body (some ch)) c1 (some s) (some r)
        with _ | ⟨a2, r2, c2⟩
      · rw [UpdateStatus_eq] at hu
        have hp : readsAbsentBundle (pushedAgent agent file.Body (some ch)) s = false := by
          simp [readsAbsentBundle, pushedAgent]
        rw [hp] at hu
        rcases ht : effectiveText s (pushedAgent agent file.Body (some ch)).EffectiveConfig
          with _ | text
        · exact effectiveText_none s _ [] ht
        · simp [ht] at hu
      · obtain ⟨w2, hc2⟩ := UpdateStatus_watchers _ _ _ _ _ _ _ hu
        have hc2' : c2 = trySend (notifyStatusWatchers agent.statusUpdateWatchers c1) ch := by
          rw [hc2]
          simp only [pushedAgent, Option.toList]
          exact notifyStatusWatchers_append _ _ _
        have hsame := notifyStatusWatchers_not_mem agent.statusUpdateWatchers c1 ch hnew
        have hts := trySend_same (notifyStatusWatchers agent.statusUpdateWatchers c1) ch
        rw [hsame] at hts
        refine ⟨w2, ?_, ?_, ?_⟩
        · rw [hc2']; exact hts.1
        · rw [hc2']; exact hts.2
        · intro c3 ns resp a3 r3 c4 h3
          obtain ⟨_, hc4⟩ := UpdateStatus_watchers _ _ _ _ _ _ _ h3
          rw [hc4, w2]
          rfl
  · left
    refine ⟨keptAgent agent file.Body, keptAgent agent file.Body, ?_, rfl, ?_, ?_⟩
    · rw [calcRemoteConfig_eq]
      simp [hq, keptAgent]
    · intro hroom
      rw [SetCustomConfig_eq agent chans cfg file (some ch) hfile]
      simp [hq, hroom, chanPut]
    · intro hroom
      rw [SetCustomConfig_eq agent chans cfg file (some ch) hfile]
      simp [hq, hroom]

/-- Witness of C8 (amended): channel 0, empty and of capacity one, given to the
first SetCustomConfig on a fresh record. -/
theorem setCustomConfig_signal_witness :
    mapIndex configA.ConfigMap [] = some { Body := [97], ContentType := [] } ∧
    (0 : ChanId) ∉ freshAgent.statusUpdateWatchers ∧
    ((∃ a0 a1, calcRemoteConfig { freshAgent with CustomInstanceConfig := [97] } =
          some (false, a0) ∧
        a1.statusUpdateWatchers = freshAgent.statusUpdateWatchers ∧
        ((emptyChans 0).len < (emptyChans 0).cap →
          SetCustomConfig freshAgent emptyChans (some configA) (some 0) =
            Outcome.returns (a1, chanPut emptyChans 0) ∧
          (chanPut emptyChans 0 0).len = (emptyChans 0).len + 1) ∧
        (¬ (emptyChans 0).len < (emptyChans 0).cap →
          SetCustomConfig freshAgent emptyChans (some configA) (some 0) =
            Outcome.blocks (a1, emptyChans))) ∨
    (∃ a0 a1, calcRemoteConfig { freshAgent with CustomInstanceConfig := [97] } =
          some (true, a0) ∧
        SetCustomConfig freshAgent emptyChans (some configA) (some 0) =
          Outcome.returns (a1, emptyChans) ∧
        a1.statusUpdateWatchers = freshAgent.statusUpdateWatchers ++ [0] ∧
        ∀ (c1 : Chans) (s : StatusReport) (r : ServerToAgent),
          match UpdateStatus a1 c1 (some s) (some r) with
          | none => effectiveText s [] = none
          | some (a2, _, c2) =>
            a2.statusUpdateWatchers = [] ∧
            (c2 0).cap = (c1 0).cap ∧
            (c2 0).len = (if (c1 0).len < (c1 0).cap then (c1 0).len + 1 else (c1 0).len) ∧
            ∀ (c3 : Chans) (ns : Option StatusReport) (resp : Option ServerToAgent)
              (a3 : Agent) (r3 : Option ServerToAgent) (c4 : Chans),
              UpdateStatus a2 c3 ns resp = some (a3, r3, c4) → c4 = c3)) :=
  ⟨by decide, by decide,
    setCustomConfig_signal freshAgent emptyChans configA { Body := [97], ContentType := [] } 0
      (by decide) (by decide)⟩

/-- C9. For a record that calcRemoteConfig has left behind (its bundle has been
computed) and a config whose empty-name file body equals the record's current
custom config, SetCustomConfig never panics; it returns when no channel is
given or the channel has room and blocks on the channel otherwise; in either
case it has sent no message to the connection, added nothing to the pending
list, and left the bundle's config map and ConfigHash as they were. -/
theorem setCustomConfig_unchanged (agent : Agent) (chans : Chans) (cfg : AgentConfigMap)
    (file : AgentConfigFile) (notify : Option ChanId)
    (hfile : mapIndex cfg.ConfigMap [] = some file)
    (hbody : file.Body = agent.CustomInstanceConfig)
    (hcomputed : ∃ a0 changed, calcRemoteConfig a0 = some (changed, agent)) :
    ∃ a1 c1 rc rc1, (SetCustomConfig agent chans (some cfg) notify).left = some (a1, c1) ∧
      ((∀ ch, notify = some ch → (chans ch).len < (chans ch).cap) →
        SetCustomConfig agent chans (some cfg) notify = Outcome.returns (a1, c1)) ∧
      a1.conn.sent = agent.conn.sent ∧
      a1.statusUpdateWatchers = agent.statusUpdateWatchers ∧
      agent.remoteConfig = some rc ∧ a1.remoteConfig = some rc1 ∧
      rc1.Config = rc.Config ∧ rc1.ConfigHash = rc.ConfigHash := by
  obtain ⟨a0, changed, hc⟩ := hcomputed
  rw [calcRemoteConfig_eq] at hc
  simp only [Option.some.injEq, Prod.mk.injEq] at hc
  have hrc : agent.remoteConfig = some (bundleOf agent.CustomInstanceConfig) := by
    rw [← hc.2]
  have hq : isEqualRemoteConfig agent.remoteConfig (some (bundleOf file.Body)) = true := by
    rw [hrc, hbody, isEqualRemoteConfig_bundleOf]
    simp
  rw [SetCustomConfig_eq agent chans cfg file notify hfile, hq]
  rcases notify with _ | ch
  · exact ⟨keptAgent agent file.Body, chans, _, _, rfl, fun _ => rfl, rfl, rfl, hrc, rfl,
      by rw [hbody], by rw [hbody]⟩
  · by_cases hroom : (chans ch).len < (chans ch).cap
    · refine ⟨keptAgent agent file.Body, chanPut chans ch, _, _, ?_, ?_, rfl, rfl, hrc, rfl,
        by rw [hbody], by rw [hbody]⟩
      · simp [hroom, Outcome.left]
      · intro _
        simp [hroom]
    · refine ⟨keptAgent agent file.Body, chans, _, _, ?_, ?_, rfl, rfl, hrc, rfl,
        by rw [hbody], by rw [hbody]⟩
      · simp [hroom, Outcome.left]
      · intro h
        exact absurd (h ch rfl) hroom

/-- Witness of C9: the record after SetCustomConfig with body "a" is given a
config with body "a" again, and channel 0. -/
theorem setCustomConfig_unchanged_witness :
    mapIndex configA.ConfigMap [] = some { Body := [97], ContentType := [] } ∧
    ([97] : Bytes) = agentA.CustomInstanceConfig ∧
    (∃ a0 changed, calcRemoteConfig a0 = some (changed, agentA)) ∧
    ∃ a1 c1 rc rc1, (SetCustomConfig agentA emptyChans (some configA) (some 0)).left =
        some (a1, c1) ∧
      ((∀ ch, some 0 = some ch → (emptyChans ch).len < (emptyChans ch).cap) →
        SetCustomConfig agentA emptyChans (some configA) (some 0) = Outcome.returns (a1, c1)) ∧
      a1.conn.sent = agentA.conn.sent ∧
      a1.statusUpdateWatchers = agentA.statusUpdateWatchers ∧
      agentA.remoteConfig = some rc ∧ a1.remoteConfig = some rc1 ∧
      rc1.Config = rc.Config ∧ rc1.ConfigHash = rc.ConfigHash :=
  ⟨by decide, rfl, ⟨agentA, false, by rw [calcRemoteConfig_eq]; simp [agentA, isEqualRemoteConfig_bundleOf]⟩,
    setCustomConfig_unchanged agentA emptyChans configA { Body := [97], ContentType := [] }
      (some 0) (by decide) rfl
      ⟨agentA, false, by rw [calcRemoteConfig_eq]; simp [agentA, isEqualRemoteConfig_bundleOf]⟩⟩

/-- C10 (the code at the failing input). A fresh record is given the config
with body "a" and channel 0, empty and of capacity one: the bundle changes and
the call returns with the channel still empty. The next status report carries
no acknowledgment and no effective config, and yet UpdateStatus delivers the
signal: the channel then holds one signal. -/
theorem setCustomConfig_notified_on_any_report :
    ((SetCustomConfig freshAgent emptyChans (some configA) (some 0)).returned.bind
      (fun st =>
        (UpdateStatus st.1 st.2 (some emptyReport) (some emptyResponse)).map
          (fun res => ((st.2 0).len, (res.2.2 0).len)))) =
      some (0, 1) := by
  decide

/-- C11 (the code at the failing input, and at every other input). Whatever the
supervisor, the managed process, the config spec (AutoReload true or not) and
the remote config, OnRemoteConfig panics: the configurer is nil, or its
UpdateConfig is the stub that panics with "implement me". No result is
returned, nothing is restored and no restart is issued. -/
theorem onRemoteConfig_panics (s : supervisor) (managed : ManagedProcess)
    (remoteConfig : Option AgentRemoteConfig) :
    s.OnRemoteConfig managed remoteConfig = Outcome.panics ∧
      (s.OnRemoteConfig managed remoteConfig).left = none ∧
      ∀ (c : configurer) (restarter : Option Restarter),
        c.UpdateConfig managed s.configSpec remoteConfig restarter = Outcome.panics := by
  refine ⟨?_, ?_, fun _ _ => rfl⟩
  · unfold supervisor.OnRemoteConfig
    rcases s.configurer with _ | c <;> rfl
  · unfold supervisor.OnRemoteConfig
    rcases s.configurer with _ | c <;> rfl

theorem isEqualAgentDescr_iff (d1 d2 : Option AgentDescription) :
    isEqualAgentDescr d1 d2 = true ↔ d1 = d2 := by
  simp [isEqualAgentDescr]

theorem processStatusUpdate_none (agent : Agent) (chans : Chans) (ns : Option StatusReport)
    (resp : Option ServerToAgent) :
    processStatusUpdate agent ns resp = none ↔ UpdateStatus agent chans ns resp = none := by
  unfold UpdateStatus
  rcases processStatusUpdate agent ns resp with _ | ⟨a, r⟩ <;> simp

theorem processStatusUpdate_bundle (agent : Agent) (s : StatusReport) (r : ServerToAgent)
    (a1 : Agent) (r1 : Option ServerToAgent)
    (h : processStatusUpdate agent (some s) (some r) = some (a1, r1)) :
    a1.remoteConfig = bundleAfter agent s := by
  have hu : UpdateStatus agent emptyChans (some s) (some r) =
      some ({ a1 with statusUpdateWatchers := [] }, r1,
        notifyStatusWatchers a1.statusUpdateWatchers emptyChans) := by
    simp [UpdateStatus, h]
  obtain ⟨_, text, _, hres⟩ := UpdateStatus_some agent emptyChans s r _ hu
  have := congrArg (fun x => x.1.remoteConfig) hres
  simpa [statusUpdateResult] using this

/-- C12. Description merge, with `isEqualAgentDescr` modelled from the spec as
field-for-field equality: for a record that holds a status and a present
report, updateStatusField returns; (i) when the report omits the description
it returns false and the stored description is unchanged; (ii) when the
report's description equals the stored one it returns false (and the stored
description is unchanged); (iii) otherwise it returns true and the stored
description is the incoming one. processStatusUpdate, when it does not panic,
leaves the record with the bundle that calcRemoteConfig computes when true was
returned, and with the stored bundle untouched when false was returned. -/
theorem updateStatusField_description (agent : Agent) (prev s : StatusReport)
    (hprev : agent.Status = some prev) :
    ∃ need agent1 st1, updateStatusField agent (some s) = some (need, agent1) ∧
      agent1.Status = some st1 ∧
      (s.AgentDescription = none →
        need = false ∧ st1.AgentDescription = prev.AgentDescription) ∧
      (s.AgentDescription ≠ none → s.AgentDescription = prev.AgentDescription →
        need = false ∧ st1.AgentDescription = prev.AgentDescription) ∧
      (s.AgentDescription ≠ none → s.AgentDescription ≠ prev.AgentDescription →
        need = true ∧ st1.AgentDescription = s.AgentDescription) ∧
      ∀ r : ServerToAgent,
        match processStatusUpdate agent (some s) (some r) with
        | none => statusUpdatePanics agent s
        | some (agent', _) =>
          (need = true → ∃ changed agent2, calcRemoteConfig agent1 = some (changed, agent2) ∧
            agent'.remoteConfig = agent2.remoteConfig) ∧
          (need = false → agent'.remoteConfig = agent.remoteConfig) := by
  refine ⟨_, _, _, updateStatusField_eq agent s, rfl, ?_, ?_, ?_, ?_⟩
  · intro hd
    simp [needCalc, mergedStatus, hprev, hd]
  · intro hd heq
    rcases hd' : s.AgentDescription with _ | d
    · exact absurd hd' hd
    · have he : isEqualAgentDescr prev.AgentDescription (some d) = true := by
        rw [isEqualAgentDescr_iff, ← heq, hd']
      simp [needCalc, mergedStatus, hprev, hd', he]
  · intro hd hne
    rcases hd' : s.AgentDescription with _ | d
    · exact absurd hd' hd
    · have he : isEqualAgentDescr prev.AgentDescription (some d) = false := by
        rcases hb : isEqualAgentDescr prev.AgentDescription (some d) with _ | _
        · rfl
        · rw [isEqualAgentDescr_iff] at hb
          exact absurd (hd'.trans hb.symm) hne
      simp [needCalc, mergedStatus, hprev, hd', he]
  · intro r
    rcases hp : processStatusUpdate agent (some s) (some r) with _ | ⟨a1, r1⟩
    · have hu := (processStatusUpdate_none agent emptyChans (some s) (some r)).1 hp
      rw [UpdateStatus_eq] at hu
      by_cases hab : readsAbsentBundle agent s = true
      · exact Or.inl hab
      · rcases ht : effectiveText s agent.EffectiveConfig with _ | text
        · exact Or.inr (effectiveText_none s _ [] ht)
        · simp [hab, ht] at hu
    · have hb := processStatusUpdate_bundle agent s r a1 r1 hp
      refine ⟨fun hn => ⟨_, _, calcRemoteConfig_eq _, ?_⟩, fun hn => ?_⟩
      · simp [hb, bundleAfter, hn]
      · simp [hb, bundleAfter, hn]

/-- Witness of C12: a record that holds `descrReport` receives a report with a
different description. -/
theorem updateStatusField_description_witness :
    statusAgent.Status = some descrReport ∧
    ∃ need agent1 st1, updateStatusField statusAgent (some otherDescrReport) =
        some (need, agent1) ∧
      agent1.Status = some st1 ∧
      (otherDescrReport.AgentDescription = none →
        need = false ∧ st1.AgentDescription = descrReport.AgentDescription) ∧
      (otherDescrReport.AgentDescription ≠ none →
        otherDescrReport.AgentDescription = descrReport.AgentDescription →
        need = false ∧ st1.AgentDescription = descrReport.AgentDescription) ∧
      (otherDescrReport.AgentDescription ≠ none →
        otherDescrReport.AgentDescription ≠ descrReport.AgentDescription →
        need = true ∧ st1.AgentDescription = otherDescrReport.AgentDescription) ∧
      ∀ r : ServerToAgent,
        match processStatusUpdate statusAgent (some otherDescrReport) (some r) with
        | none => statusUpdatePanics statusAgent otherDescrReport
        | some (agent', _) =>
          (need = true → ∃ changed agent2, calcRemoteConfig agent1 = some (changed, agent2) ∧
            agent'.remoteConfig = agent2.remoteConfig) ∧
          (need = false → agent'.remoteConfig = statusAgent.remoteConfig) :=
  ⟨rfl, updateStatusField_description statusAgent descrReport otherDescrReport rfl⟩

theorem isEqualConfigFile_iff (v1 v2 : Option AgentConfigFile) :
    isEqualConfigFile v1 v2 = true ↔ v1 = v2 := by
  rcases v1 with _ | ⟨b1, t1⟩ <;> rcases v2 with _ | ⟨b2, t2⟩ <;> simp [isEqualConfigFile]

theorem mapLookup_cons_ne (rest : GoMap) (k k0 : Bytes) (v0 : Option AgentConfigFile)
    (hne : k ≠ k0) : mapLookup ((k0, v0) :: rest) k = mapLookup rest k := by
  have hb : (k == k0) = false := by simpa using hne
  simp only [mapLookup, List.lookup_cons, hb]

theorem mapLookup_of_mem (l : GoMap) (hn : (l.map Prod.fst).Nodup) (k : Bytes)
    (v : Option AgentConfigFile) (h : (k, v) ∈ l) : mapLookup l k = some v := by
  induction l with
  | nil => simp at h
  | cons p rest ih =>
    obtain ⟨k0, v0⟩ := p
    simp only [List.map_cons, List.nodup_cons] at hn
    simp only [List.mem_cons, Prod.mk.injEq] at h
    rcases h with ⟨hk, hv⟩ | hmem
    · subst hk; subst hv
      simp [mapLookup]
    · have hne : k ≠ k0 := by
        intro he
        subst he
        exact hn.1 (List.mem_map.2 ⟨(k, v), hmem, rfl⟩)
      rw [mapLookup_cons_ne rest k k0 v0 hne]
      exact ih hn.2 hmem

theorem mem_of_mapLookup (l : GoMap) (k : Bytes) (v : Option AgentConfigFile)
    (h : mapLookup l k = some v) : (k, v) ∈ l := by
  induction l with
  | nil => simp [mapLookup] at h
  | cons p rest ih =>
    obtain ⟨k0, v0⟩ := p
    simp only [mapLookup, List.lookup_cons] at h
    by_cases he : k = k0
    · subst he
      simp at h
      simp [h]
    · have hb : (k == k0) = false := by simpa using he
      simp only [hb] at h
      exact List.mem_cons_of_mem _ (ih h)

theorem mem_keys_iff (l : GoMap) (k : Bytes) :
    k ∈ l.map Prod.fst ↔ ∃ v, mapLookup l k = some v := by
  constructor
  · intro h
    induction l with
    | nil => simp at h
    | cons p rest ih =>
      obtain ⟨k0, v0⟩ := p
      by_cases he : k = k0
      · subst he
        exact ⟨v0, by simp [mapLookup]⟩
      · simp only [List.map_cons, List.mem_cons] at h
        rcases h with h | h
        · exact absurd h he
        · obtain ⟨v, hv⟩ := ih h
          exact ⟨v, by rw [mapLookup_cons_ne rest k k0 v0 he]; exact hv⟩
  · rintro ⟨v, hv⟩
    exact List.mem_map.2 ⟨(k, v), mem_of_mapLookup l k v hv, rfl⟩

theorem isEqualConfigSet_iff (m1 m2 : AgentConfigMap)
    (hn1 : (m1.ConfigMap.map Prod.fst).Nodup) (hn2 : (m2.ConfigMap.map Prod.fst).Nodup) :
    isEqualConfigSet (some m1) (some m2) = true ↔
      (∀ k, k ∈ m1.ConfigMap.map Prod.fst ↔ k ∈ m2.ConfigMap.map Prod.fst) ∧
      ∀ k v1 v2, mapLookup m1.ConfigMap k = some v1 → mapLookup m2.ConfigMap k = some v2 →
        v1 = v2 := by
  simp only [isEqualConfigSet]
  constructor
  · intro h
    by_cases hl : m1.ConfigMap.length = m2.ConfigMap.length
    · simp only [hl, bne_self_eq_false, Bool.false_eq_true, if_false, List.all_eq_true] at h
      have hall : ∀ k v1, (k, v1) ∈ m1.ConfigMap → mapLookup m2.ConfigMap k = some v1 := by
        intro k v1 hmem
        have := h (k, v1) hmem
        simp only at this
        rcases hlk : mapLookup m2.ConfigMap k with _ | v2
        · simp [hlk] at this
        · simp only [hlk, isEqualConfigFile_iff] at this
          rw [this]
      have hsub : m1.ConfigMap.map Prod.fst ⊆ m2.ConfigMap.map Prod.fst := by
        intro k hk
        obtain ⟨v1, hv1⟩ := (mem_keys_iff _ k).1 hk
        exact (mem_keys_iff _ k).2 ⟨v1, hall k v1 (mem_of_mapLookup _ k v1 hv1)⟩
      have hperm : (m1.ConfigMap.map Prod.fst).Perm (m2.ConfigMap.map Prod.fst) :=
        (List.subperm_of_subset hn1 hsub).perm_of_length_le (by simp [hl])
      refine ⟨fun k => hperm.mem_iff, ?_⟩
      intro k v1 v2 h1 h2
      have := hall k v1 (mem_of_mapLookup _ k v1 h1)
      rw [h2] at this
      exact (Option.some.inj this).symm
    · have hl' : (m1.ConfigMap.length != m2.ConfigMap.length) = true := by simpa using hl
      simp [hl'] at h
  · rintro ⟨hkeys, hfiles⟩
    have hperm : (m1.ConfigMap.map Prod.fst).Perm (m2.ConfigMap.map Prod.fst) :=
      (List.perm_ext_iff_of_nodup hn1 hn2).2 hkeys
    have hl : m1.ConfigMap.length = m2.ConfigMap.length := by
      simpa using hperm.length_eq
    simp only [hl, bne_self_eq_false, Bool.false_eq_true, if_false, List.all_eq_true]
    rintro ⟨k, v1⟩ hmem
    have h1 := mapLookup_of_mem _ hn1 k v1 hmem
    obtain ⟨v2, h2⟩ := (mem_keys_iff _ k).1
      ((hkeys k).1 ((mem_keys_iff _ k).2 ⟨v1, h1⟩))
    simp only [h2, isEqualConfigFile_iff]
    exact hfiles k v1 v2 h1 h2

theorem sameFile_iff (v1 v2 : Option AgentConfigFile) :
    (match v1, v2 with
      | some f1, some f2 => f1.Body = f2.Body ∧ f1.ContentType = f2.ContentType
      | none, none => True
      | _, _ => False) ↔ v1 = v2 := by
  rcases v1 with _ | ⟨b1, t1⟩ <;> rcases v2 with _ | ⟨b2, t2⟩ <;> simp

/-- C13. Bundle equality is structural: for two present bundles with present
config maps (Go maps, so no key occurs twice), isEqualRemoteConfig returns true
if and only if the two maps have the same set of keys and under each key the
two files have the same body and the same content type (two nil files agree, a
nil file and a file do not); the result is the same whatever the ConfigHash of
either bundle, and the same with the two arguments exchanged. -/
theorem isEqualRemoteConfig_structural (c1 c2 : AgentRemoteConfig) (m1 m2 : AgentConfigMap)
    (h1 : c1.Config = some m1) (h2 : c2.Config = some m2)
    (hn1 : (m1.ConfigMap.map Prod.fst).Nodup) (hn2 : (m2.ConfigMap.map Prod.fst).Nodup) :
    (isEqualRemoteConfig (some c1) (some c2) = true ↔
      (∀ k, k ∈ m1.ConfigMap.map Prod.fst ↔ k ∈ m2.ConfigMap.map Prod.fst) ∧
      ∀ k v1 v2, mapLookup m1.ConfigMap k = some v1 → mapLookup m2.ConfigMap k = some v2 →
        match v1, v2 with
        | some f1, some f2 => f1.Body = f2.Body ∧ f1.ContentType = f2.ContentType
        | none, none => True
        | _, _ => False) ∧
    (∀ hash1 hash2 : Bytes,
      isEqualRemoteConfig (some { c1 with ConfigHash := hash1 })
          (some { c2 with ConfigHash := hash2 }) =
        isEqualRemoteConfig (some c1) (some c2)) ∧
    isEqualRemoteConfig (some c2) (some c1) = isEqualRemoteConfig (some c1) (some c2) := by
  have e12 : isEqualRemoteConfig (some c1) (some c2) = isEqualConfigSet (some m1) (some m2) := by
    simp [isEqualRemoteConfig, h1, h2]
  have e21 : isEqualRemoteConfig (some c2) (some c1) = isEqualConfigSet (some m2) (some m1) := by
    simp [isEqualRemoteConfig, h1, h2]
  refine ⟨?_, fun _ _ => rfl, ?_⟩
  · rw [e12, isEqualConfigSet_iff m1 m2 hn1 hn2]
    simp only [sameFile_iff]
  · rw [e12, e21, Bool.eq_iff_iff, isEqualConfigSet_iff m1 m2 hn1 hn2,
      isEqualConfigSet_iff m2 m1 hn2 hn1]
    constructor
    · rintro ⟨hk, hf⟩
      exact ⟨fun k => (hk k).symm, fun k v1 v2 a b => (hf k v2 v1 b a).symm⟩
    · rintro ⟨hk, hf⟩
      exact ⟨fun k => (hk k).symm, fun k v1 v2 a b => (hf k v2 v1 b a).symm⟩

/-- Witness of C13: the same two files listed in two orders with two hashes. -/
theorem isEqualRemoteConfig_structural_witness :
    twoFileBundle.Config = some { ConfigMap :=
      [([120], some { Body := [1], ContentType := [2] }),
       ([121], some { Body := [3], ContentType := [] })] } ∧
    twoFileBundleSwapped.Config = some { ConfigMap :=
      [([121], some { Body := [3], ContentType := [] }),
       ([120], some { Body := [1], ContentType := [2] })] } ∧
    isEqualRemoteConfig (some twoFileBundle) (some twoFileBundleSwapped) = true ∧
    ((isEqualRemoteConfig (some twoFileBundle) (some twoFileBundleSwapped) = true ↔
      (∀ k, k ∈ ([([120], some { Body := [1], ContentType := [2] }),
              ([121], some { Body := [3], ContentType := [] })] : GoMap).map Prod.fst ↔
            k ∈ ([([121], some { Body := [3], ContentType := [] }),
              ([120], some { Body := [1], ContentType := [2] })] : GoMap).map Prod.fst) ∧
      ∀ k v1 v2,
        mapLookup [([120], some { Body := [1], ContentType := [2] }),
          ([121], some { Body := [3], ContentType := [] })] k = some v1 →
        mapLookup [([121], some { Body := [3], ContentType := [] }),
          ([120], some { Body := [1], ContentType := [2] })] k = some v2 →
        match v1, v2 with
        | some f1, some f2 => f1.Body = f2.Body ∧ f1.ContentType = f2.ContentType
        | none, none => True
        | _, _ => False) ∧
    (∀ hash1 hash2 : Bytes,
      isEqualRemoteConfig (some { twoFileBundle with ConfigHash := hash1 })
          (some { twoFileBundleSwapped with ConfigHash := hash2 }) =
        isEqualRemoteConfig (some twoFileBundle) (some twoFileBundleSwapped)) ∧
    isEqualRemoteConfig (some twoFileBundleSwapped) (some twoFileBundle) =
      isEqualRemoteConfig (some twoFileBundle) (some twoFileBundleSwapped)) :=
  ⟨rfl, rfl, by decide,
    isEqualRemoteConfig_structural twoFileBundle twoFileBundleSwapped _ _ rfl rfl
      (by decide) (by decide)⟩

theorem appendBodies_none_iff (m : GoMap) (acc : Bytes) :
    appendBodies m acc = none ↔ ∃ k, (k, none) ∈ m := by
  induction m generalizing acc with
  | nil => simp [appendBodies]
  | cons p rest ih =>
    obtain ⟨k0, v0⟩ := p
    rcases v0 with _ | f
    · simp only [appendBodies, true_iff]
      exact ⟨k0, List.mem_cons_self _ _⟩
    · simp only [appendBodies, ih, List.mem_cons, Prod.mk.injEq]
      constructor
      · rintro ⟨k, hk⟩
        exact ⟨k, Or.inr hk⟩
      · rintro ⟨k, hk | hk⟩
        · exact absurd hk.2 (by simp)
        · exact ⟨k, hk⟩

theorem effectiveText_none_iff (s : StatusReport) (old : Bytes) :
    effectiveText s old = none ↔
      ∃ ec cm k, s.EffectiveConfig = some ec ∧ ec.ConfigMap = some cm ∧
        (k, none) ∈ cm.ConfigMap := by
  unfold effectiveText
  rcases hs : s.EffectiveConfig with _ | ec
  · simp
  · rcases hm : ec.ConfigMap with _ | cm
    · simp [hm]
    · simp [hm, appendBodies_none_iff]

theorem processStatusUpdate_first (agent : Agent) (ns : Option StatusReport)
    (resp : Option ServerToAgent) (a1 : Agent) (r1 : Option ServerToAgent)
    (hS : agent.Status = none)
    (h : processStatusUpdate agent ns resp = some (a1, r1)) :
    a1.remoteConfig = some (bundleOf agent.CustomInstanceConfig) := by
  unfold processStatusUpdate at h
  simp only [updateStatusField, hS, calcRemoteConfig_eq, if_true] at h
  repeat' split at h
  all_goals first
    | (exact absurd h (by simp))
    | ((obtain ⟨g1, _, _, _⟩ := updateEffectiveConfig_frame _ ns _ a1 r1 h); rw [g1])

theorem reachable_status_bundle (agent : Agent) (chans : Chans) (h : Reachable agent chans) :
    agent.Status = none ∨ ∃ rc, agent.remoteConfig = some rc := by
  induction h with
  | newAgent instanceId conn chans => exact Or.inl rfl
  | updateStatus ns resp _ hcall ih =>
    rename_i agent0 chans0 agent1 response1 chans1
    right
    unfold UpdateStatus at hcall
    split at hcall
    · simp at hcall
    · rename_i a1 r1 hp
      simp only [Option.some.injEq, Prod.mk.injEq] at hcall
      rw [← hcall.1]
      simp only
      rcases ih with hS | ⟨rc, hrc⟩
      · exact ⟨_, processStatusUpdate_first _ ns resp a1 r1 hS hp⟩
      · obtain ⟨f1, _, _, _⟩ := processStatusUpdate_frame _ ns resp a1 r1 hp
        rcases f1 with f1 | f1
        · exact ⟨rc, by rw [f1, hrc]⟩
        · exact ⟨_, f1⟩
  | setCustomConfig config notify _ hcall _ =>
    exact Or.inr ⟨_, SetCustomConfig_left _ _ config notify _ _ hcall⟩
  | channels _ _ ih => exact ih

/-- C14 (counterexample). A fresh record, which is a reachable state, is given
a present status report whose effective config maps the empty name to a nil
file, and a present response: UpdateStatus panics on the nil file, an absent
value. -/
theorem reachable_updateStatus_counterexample :
    Reachable freshAgent emptyChans ∧
      (UpdateStatus freshAgent emptyChans (some nilFileReport) (some emptyResponse)).isNone =
        true :=
  ⟨Reachable.newAgent [] { sent := [] } emptyChans, by decide⟩

/-- C14 (amended). In every state reachable from NewAgent by SetCustomConfig and
UpdateStatus calls, for every present status report and present response:
updateStatusField and the recalculation it may ask for return, and leave the
record with a bundle present where UpdateStatus reads the bundle's ConfigHash
and a stored status present where it reads the stored status's EffectiveConfig;
on a record without a stored status the bundle is computed before the hashes
are compared; and UpdateStatus fails only on a nil file in the file map of the
incoming effective config, never on an absent bundle or stored status. -/
theorem reachable_updateStatus_safe (agent : Agent) (chans : Chans)
    (hreach : Reachable agent chans) (s : StatusReport) (r : ServerToAgent) :
    ∃ need agent1 changed agent2 rc2 st2,
      updateStatusField agent (some s) = some (need, agent1) ∧
      (if need then calcRemoteConfig agent1 else some (false, agent1)) =
        some (changed, agent2) ∧
      agent2.remoteConfig = some rc2 ∧
      agent2.Status = some st2 ∧
      (agent.Status = none → need = true) ∧
      (UpdateStatus agent chans (some s) (some r) = none ↔
        ∃ ec cm k, s.EffectiveConfig = some ec ∧ ec.ConfigMap = some cm ∧
          (k, none) ∈ cm.ConfigMap) := by
  have hinv := reachable_status_bundle agent chans hreach
  have hfirst : agent.Status = none → needCalc agent s = true := by
    intro hS
    simp [needCalc, hS]
  have hab : readsAbsentBundle agent s = false := by
    rcases hinv with hS | ⟨rc, hrc⟩
    · simp [readsAbsentBundle, hfirst hS]
    · simp [readsAbsentBundle, hrc]
  have hcall : UpdateStatus agent chans (some s) (some r) = none ↔
      ∃ ec cm k, s.EffectiveConfig = some ec ∧ ec.ConfigMap = some cm ∧
        (k, none) ∈ cm.ConfigMap := by
    rw [UpdateStatus_eq, hab, ← effectiveText_none_iff s agent.EffectiveConfig]
    rcases effectiveText s agent.EffectiveConfig with _ | text <;> simp
  rcases hn : needCalc agent s with _ | _
  · have hrc : ∃ rc, agent.remoteConfig = some rc := by
      rcases hinv with hS | h
      · rw [hfirst hS] at hn
        exact absurd hn (by simp)
      · exact h
    obtain ⟨rc, hrc⟩ := hrc
    refine ⟨false, { agent with Status := some (mergedStatus agent s) }, false,
      { agent with Status := some (mergedStatus agent s) }, rc, mergedStatus agent s,
      ?_, rfl, hrc, rfl, ?_, hcall⟩
    · rw [updateStatusField_eq, hn]
    · intro hS
      rw [hfirst hS] at hn
      exact absurd hn (by simp)
  · refine ⟨true, { agent with Status := some (mergedStatus agent s) }, _,
      { agent with Status := some (mergedStatus agent s),
                   remoteConfig := some (bundleOf agent.CustomInstanceConfig) },
      bundleOf agent.CustomInstanceConfig, mergedStatus agent s, ?_,
      calcRemoteConfig_eq _, rfl, rfl, fun _ => rfl, hcall⟩
    rw [updateStatusField_eq, hn]

/-- Witness of C14 (amended): the record after one SetCustomConfig call on a
fresh record receives its first status report. -/
theorem reachable_updateStatus_safe_witness :
    Reachable agentA emptyChans ∧
    ∃ need agent1 changed agent2 rc2 st2,
      updateStatusField agentA (some descrReport) = some (need, agent1) ∧
      (if need then calcRemoteConfig agent1 else some (false, agent1)) =
        some (changed, agent2) ∧
      agent2.remoteConfig = some rc2 ∧
      agent2.Status = some st2 ∧
      (agentA.Status = none → need = true) ∧
      (UpdateStatus agentA emptyChans (some descrReport) (some emptyResponse) = none ↔
        ∃ ec cm k, descrReport.EffectiveConfig = some ec ∧ ec.ConfigMap = some cm ∧
          (k, none) ∈ cm.ConfigMap) :=
  (fun h => ⟨h, reachable_updateStatus_safe agentA emptyChans h descrReport emptyResponse⟩)
    (Reachable.setCustomConfig (some configA) none
      (Reachable.newAgent [] { sent := [] } emptyChans) rfl)

end Opamp
